import Mathlib

/-!
Shallow embedding of the riplog query engine (gilbertw1/riplog) and proofs
about its specified behaviour.

Conventions of the embedding:
* Raw log data is a byte sequence, modelled as `List Nat` (`Bytes`).
* Rust strings obtained by `String::from_utf8_unchecked` are identified with
  their byte sequences.
* `&mut` state is threaded explicitly: a method mutating a record returns the
  value together with the updated record.
* A Rust panic (`unwrap` of `None`, out-of-bounds slicing) is modelled by
  `Option`: a `none` result means the code panics.
* `u64` arithmetic wraps modulo `2 ^ 64` (release-build semantics), written
  `% U64MOD`.
* `DateTime` values are modelled by their timestamp in seconds as `Int`;
  `with_timezone` does not change the instant, so chronological comparison is
  integer comparison.
-/

namespace Riplog

abbrev Bytes := List Nat

def U64MOD : Nat := 18446744073709551616

/-- The bytes of an ASCII string literal, for writing concrete log data. -/
def bytesOfString (s : String) : Bytes := s.data.map Char.toNat

/-- Lexicographic order on byte slices, as `&[u8] < &[u8]` in Rust
(elementwise, a strict prefix is smaller). -/
def lexLt : Bytes → Bytes → Bool
  | _, [] => false
  | [], _ :: _ => true
  | a :: as, b :: bs => if a < b then true else if b < a then false else lexLt as bs

def isDigit (c : Nat) : Bool := 48 ≤ c && c ≤ 57

def digitsVal (l : Bytes) : Nat := l.foldl (fun a c => a * 10 + (c - 48)) 0

/-- `str::parse::<u64>()`: optional leading `+`, then decimal digits, value
must fit in a `u64`; anything else is a parse error. -/
def parseU64 (b : Bytes) : Option Nat :=
  let core := fun (d : Bytes) =>
    if d.isEmpty then none
    else if d.all isDigit then
      let v := digitsVal d
      if v < U64MOD then some v else none
    else none
  match b with
  | 43 :: rest => core rest
  | _ => core b

def expectByte (c : Nat) : Bytes → Option Bytes
  | x :: xs => if x = c then some xs else none
  | [] => none

/-- One or two leading decimal digits (chrono's numeric field parsing). -/
def parseUpTo2Digits (b : Bytes) : Option (Nat × Bytes) :=
  let d := (b.takeWhile isDigit).take 2
  if d.isEmpty then none else some (digitsVal d, b.drop d.length)

/-- Exactly `n` decimal digits. -/
def parseFixedDigits (n : Nat) (b : Bytes) : Option (Nat × Bytes) :=
  let d := b.take n
  if d.length = n ∧ d.all isDigit then some (digitsVal d, b.drop n) else none

/-- Case-insensitive three-letter English month abbreviation (chrono `%b`). -/
def monthOfAbbrev (b : Bytes) : Option Nat :=
  let lower := b.map (fun c => if 65 ≤ c ∧ c ≤ 90 then c + 32 else c)
  if lower = bytesOfString "jan" then some 1
  else if lower = bytesOfString "feb" then some 2
  else if lower = bytesOfString "mar" then some 3
  else if lower = bytesOfString "apr" then some 4
  else if lower = bytesOfString "may" then some 5
  else if lower = bytesOfString "jun" then some 6
  else if lower = bytesOfString "jul" then some 7
  else if lower = bytesOfString "aug" then some 8
  else if lower = bytesOfString "sep" then some 9
  else if lower = bytesOfString "oct" then some 10
  else if lower = bytesOfString "nov" then some 11
  else if lower = bytesOfString "dec" then some 12
  else none

def isLeap (y : Nat) : Bool := y % 4 = 0 && (y % 100 ≠ 0 || y % 400 = 0)

def daysInMonth (y m : Nat) : Nat :=
  if m = 2 then (if isLeap y then 29 else 28)
  else if m = 4 ∨ m = 6 ∨ m = 9 ∨ m = 11 then 30
  else 31

/-- Days from 1970-01-01 of the proleptic Gregorian date `y-m-d` (`y ≥ 1`),
the standard civil-from-days formula. -/
def civilDays (y m d : Nat) : Int :=
  let y' := if m ≤ 2 then y - 1 else y
  let era := y' / 400
  let yoe := y' % 400
  let mp := (m + 9) % 12
  let doy := (153 * mp + 2) / 5 + d - 1
  let doe := yoe * 365 + yoe / 4 - yoe / 100 + doy
  (era : Int) * 146097 + (doe : Int) - 719468

/-- The timestamp in seconds of the parsed calendar fields. -/
def timestampOf (day m y hh mi ss : Nat) (sign : Int) (oh om : Nat) : Int :=
  civilDays y m day * 86400 + hh * 3600 + mi * 60 + ss - sign * (oh * 3600 + om * 60)

/-- `DateTime::parse_from_str(s, "%d/%b/%Y:%H:%M:%S %z")`, yielding the
timestamp in seconds.  The whole input must be consumed and the calendar
fields must be in range; otherwise the parse fails. -/
def parseNginxDate (b : Bytes) : Option Int :=
  match parseUpTo2Digits b with
  | none => none
  | some (day, r1) =>
  match expectByte 47 r1 with
  | none => none
  | some r2 =>
  match monthOfAbbrev (r2.take 3) with
  | none => none
  | some m =>
  match expectByte 47 (r2.drop 3) with
  | none => none
  | some r3 =>
  match parseFixedDigits 4 r3 with
  | none => none
  | some (y, r4) =>
  match expectByte 58 r4 with
  | none => none
  | some r5 =>
  match parseUpTo2Digits r5 with
  | none => none
  | some (hh, r6) =>
  match expectByte 58 r6 with
  | none => none
  | some r7 =>
  match parseUpTo2Digits r7 with
  | none => none
  | some (mi, r8) =>
  match expectByte 58 r8 with
  | none => none
  | some r9 =>
  match parseUpTo2Digits r9 with
  | none => none
  | some (ss, r10) =>
  match expectByte 32 r10 with
  | none => none
  | some r11 =>
  match (match r11 with
         | 43 :: rest => some ((1 : Int), rest)
         | 45 :: rest => some ((-1 : Int), rest)
         | _ => none) with
  | none => none
  | some (sign, r12) =>
  match parseFixedDigits 2 r12 with
  | none => none
  | some (oh, r13) =>
  match parseFixedDigits 2 (match r13 with | 58 :: rest => rest | _ => r13) with
  | none => none
  | some (om, r14) =>
  if r14.isEmpty ∧ 1 ≤ day ∧ day ≤ daysInMonth y m ∧ hh < 24 ∧ mi < 60 ∧ ss < 60 then
    some (timestampOf day m y hh mi ss sign oh om)
  else none

/-- The decimal rendering of a `u64` (`u64::to_string`). -/
def natToDecimal (n : Nat) : Bytes := bytesOfString (toString n)

/-- The rendering of an `Int`. Stands in for the `Display` text of a
`DateTime<Local>`; no property proved here depends on its exact text. -/
def intToDecimal (i : Int) : Bytes := bytesOfString (toString i)

/-! ## nginx.rs: the reusable binary record and its memoized accessors -/

/-- `ParsedNginxLogRecord`: one cache slot per column. A slot is `none` until
the corresponding accessor first runs. -/
structure ParsedNginxLogRecord where
  ip : Option Bytes
  date : Option Int
  method : Option (Option Bytes)
  path : Option Bytes
  query : Option (Option Bytes)
  status : Option (Option Nat)
  bytes : Option (Option Nat)
  referrer : Option (Option Bytes)
  user_agent : Option (Option Bytes)
deriving DecidableEq

def ParsedNginxLogRecord.empty : ParsedNginxLogRecord :=
  { ip := none, date := none, method := none, path := none, query := none,
    status := none, bytes := none, referrer := none, user_agent := none }

/-- `BinaryNginxLogRecord`: the nine owned raw byte columns plus the parsed
cache. -/
structure BinaryNginxLogRecord where
  ip : Bytes
  date : Bytes
  method : Bytes
  path : Bytes
  query : Bytes
  status : Bytes
  bytes : Bytes
  referrer : Bytes
  user_agent : Bytes
  parsed_record : ParsedNginxLogRecord
deriving DecidableEq

def BinaryNginxLogRecord.empty : BinaryNginxLogRecord :=
  { ip := [], date := [], method := [], path := [], query := [], status := [],
    bytes := [], referrer := [], user_agent := [], parsed_record := ParsedNginxLogRecord.empty }

def BinaryNginxLogRecord.parsed_ip (r : BinaryNginxLogRecord) :
    Bytes × BinaryNginxLogRecord :=
  match r.parsed_record.ip with
  | some s => (s, r)
  | none => (r.ip, { r with parsed_record := { r.parsed_record with ip := some r.ip } })

/-- `parsed_date`: on a cache miss the date bytes are parsed; the parse result
is stored and then `unwrap`ped, so a failed parse panics (`none`). -/
def BinaryNginxLogRecord.parsed_date (r : BinaryNginxLogRecord) :
    Option (Int × BinaryNginxLogRecord) :=
  match r.parsed_record.date with
  | some d => some (d, r)
  | none =>
    match parseNginxDate r.date with
    | some d => some (d, { r with parsed_record := { r.parsed_record with date := some d } })
    | none => none

def BinaryNginxLogRecord.parsed_method (r : BinaryNginxLogRecord) :
    Option Bytes × BinaryNginxLogRecord :=
  match r.parsed_record.method with
  | some v => (v, r)
  | none =>
    let v := if r.method.length < 1 then none else some r.method
    (v, { r with parsed_record := { r.parsed_record with method := some v } })

def BinaryNginxLogRecord.parsed_path (r : BinaryNginxLogRecord) :
    Bytes × BinaryNginxLogRecord :=
  match r.parsed_record.path with
  | some s => (s, r)
  | none => (r.path, { r with parsed_record := { r.parsed_record with path := some r.path } })

def BinaryNginxLogRecord.parsed_query (r : BinaryNginxLogRecord) :
    Option Bytes × BinaryNginxLogRecord :=
  match r.parsed_record.query with
  | some v => (v, r)
  | none =>
    let v := if r.query.length < 1 then none else some r.query
    (v, { r with parsed_record := { r.parsed_record with query := some v } })

def BinaryNginxLogRecord.parsed_status (r : BinaryNginxLogRecord) :
    Option Nat × BinaryNginxLogRecord :=
  match r.parsed_record.status with
  | some v => (v, r)
  | none =>
    let v := if r.status.length < 1 then none else parseU64 r.status
    (v, { r with parsed_record := { r.parsed_record with status := some v } })

def BinaryNginxLogRecord.parsed_bytes (r : BinaryNginxLogRecord) :
    Option Nat × BinaryNginxLogRecord :=
  match r.parsed_record.bytes with
  | some v => (v, r)
  | none =>
    let v := if r.bytes.length < 1 then none else parseU64 r.bytes
    (v, { r with parsed_record := { r.parsed_record with bytes := some v } })

def BinaryNginxLogRecord.parsed_referrer (r : BinaryNginxLogRecord) :
    Option Bytes × BinaryNginxLogRecord :=
  match r.parsed_record.referrer with
  | some v => (v, r)
  | none =>
    let v := if r.referrer.length < 1 then none else some r.referrer
    (v, { r with parsed_record := { r.parsed_record with referrer := some v } })

def BinaryNginxLogRecord.parsed_user_agent (r : BinaryNginxLogRecord) :
    Option Bytes × BinaryNginxLogRecord :=
  match r.parsed_record.user_agent with
  | some v => (v, r)
  | none =>
    let v := if r.user_agent.length < 1 then none else some r.user_agent
    (v, { r with parsed_record := { r.parsed_record with user_agent := some v } })

/-! ## nginx.rs: the tokenizer -/

/-- `&v[a..b]`: panics (`none`) unless `a ≤ b ≤ v.len()`. -/
def slice (l : Bytes) (a b : Nat) : Option Bytes :=
  if a ≤ b ∧ b ≤ l.length then some ((l.drop a).take (b - a)) else none

def index_of (vec : Bytes) (c : Nat) : Option Nat :=
  match vec with
  | [] => none
  | x :: xs => if x = c then some 0 else (index_of xs c).map (· + 1)

def empty_opt (bytes : Bytes) : Option Bytes :=
  if bytes.length < 1 then none else some bytes

/-- The request-line split of `read_log_record_binary`: from the bytes inside
the quotes, the `(method, path, query)` triple. -/
def splitRequest (request : Bytes) : Option (Bytes × Bytes × Bytes) :=
  let empty : Bytes := []
  match index_of request 32 with
  | none => some (empty, request, empty)
  | some i =>
  match slice request 0 i with
  | none => none
  | some method =>
  match slice request (i + 1) request.length with
  | none => none
  | some req_working =>
  let req_space_idx := index_of req_working 32
  let req_question_idx := index_of req_working 63
  match (match req_question_idx, req_space_idx with
         | some q, _ => slice req_working 0 q
         | none, some s => slice req_working 0 s
         | none, none => some req_working) with
  | none => none
  | some path =>
  match (match req_question_idx, req_space_idx with
         | some q, some s => slice req_working q s
         | some q, none => slice req_working q req_working.length
         | none, _ => some empty) with
  | none => none
  | some query => some (method, path, query)

/-- `read_log_record_binary` of nginx.rs: sequential byte scan of one line.
Every `index_of(..).unwrap()` and every slice panics on a malformed line,
modelled by a `none` result.  On success the nine raw columns are stored and
every parsed-cache slot is cleared. -/
def read_log_record_binary (buf : Bytes) (len : Nat)
    (record : BinaryNginxLogRecord) : Option BinaryNginxLogRecord :=
  match slice buf 0 len with
  | none => none
  | some working =>
  match index_of working 32 with
  | none => none
  | some space_idx =>
  match slice working 0 space_idx with
  | none => none
  | some ip =>
  match slice working (space_idx + 1) working.length with
  | none => none
  | some working =>
  match index_of working 32 with
  | none => none
  | some space_idx =>
  match slice working (space_idx + 1) working.length with
  | none => none
  | some working =>
  match index_of working 32 with
  | none => none
  | some space_idx =>
  match slice working (space_idx + 1) working.length with
  | none => none
  | some working =>
  match index_of working 93 with
  | none => none
  | some brace_idx =>
  match slice working 1 brace_idx with
  | none => none
  | some date =>
  match slice working (brace_idx + 3) working.length with
  | none => none
  | some working =>
  match index_of working 34 with
  | none => none
  | some quote_idx =>
  match slice working 0 quote_idx with
  | none => none
  | some request =>
  match slice working (quote_idx + 2) working.length with
  | none => none
  | some working =>
  match splitRequest request with
  | none => none
  | some (method, path, query) =>
  match index_of working 32 with
  | none => none
  | some space_idx =>
  match slice working 0 space_idx with
  | none => none
  | some status =>
  match slice working (space_idx + 1) working.length with
  | none => none
  | some working =>
  match index_of working 32 with
  | none => none
  | some space_idx =>
  match slice working 0 space_idx with
  | none => none
  | some bytes =>
  match slice working (space_idx + 1) working.length with
  | none => none
  | some working =>
  match index_of working 32 with
  | none => none
  | some space_idx =>
  match slice working 1 (space_idx - 1) with
  | none => none
  | some referrer =>
  match slice working (space_idx + 1) working.length with
  | none => none
  | some working =>
  match slice working 1 (working.length - 1) with
  | none => none
  | some user_agent =>
  some { record with
    ip := ip, date := date, method := method, path := path, query := query,
    status := status, bytes := bytes, referrer := referrer, user_agent := user_agent,
    parsed_record := ParsedNginxLogRecord.empty }

/-! ## table.rs: column definitions and the table definition

The generic parameter `T` of the source is instantiated at
`BinaryNginxLogRecord`, the only record type the program uses.  A typed
extractor threads the mutable record; the `Date` extractor's result is wrapped
in one more `Option` whose `none` models a panic inside the closure
(`parsed_date` can panic). -/

inductive ColumnDefinition where
  | Integer (name : String) (size : Nat)
      (binary_extractor : BinaryNginxLogRecord → Option Bytes)
      (extractor : BinaryNginxLogRecord → Option Nat × BinaryNginxLogRecord)
  | Double (name : String) (size : Nat)
      (binary_extractor : BinaryNginxLogRecord → Option Bytes)
      (extractor : BinaryNginxLogRecord → Option Int × BinaryNginxLogRecord)
  | Text (name : String) (size : Nat)
      (binary_extractor : BinaryNginxLogRecord → Option Bytes)
      (extractor : BinaryNginxLogRecord → Option Bytes × BinaryNginxLogRecord)
  | Date (name : String) (size : Nat)
      (binary_extractor : BinaryNginxLogRecord → Option Bytes)
      (extractor : BinaryNginxLogRecord → Option (Option Int × BinaryNginxLogRecord))
  | Boolean (name : String) (size : Nat)
      (binary_extractor : BinaryNginxLogRecord → Option Bytes)
      (extractor : BinaryNginxLogRecord → Option Bool × BinaryNginxLogRecord)

def ColumnDefinition.name : ColumnDefinition → String
  | .Integer n _ _ _ => n
  | .Double n _ _ _ => n
  | .Text n _ _ _ => n
  | .Date n _ _ _ => n
  | .Boolean n _ _ _ => n

def ColumnDefinition.extract_binary (c : ColumnDefinition)
    (record : BinaryNginxLogRecord) : Option Bytes :=
  match c with
  | .Integer _ _ be _ => be record
  | .Double _ _ be _ => be record
  | .Text _ _ be _ => be record
  | .Date _ _ be _ => be record
  | .Boolean _ _ be _ => be record

def ColumnDefinition.get_size : ColumnDefinition → Nat
  | .Integer _ s _ _ => s
  | .Double _ s _ _ => s
  | .Text _ s _ _ => s
  | .Date _ s _ _ => s
  | .Boolean _ s _ _ => s

/-- `TableDefinition`: the column map (a `HashMap` in the source, modelled as
an association list looked up by name) and the insertion order of columns. -/
structure TableDefinition where
  column_map : List (String × ColumnDefinition)
  ordered_columns : List String

/-- `create_nginx_log_record_table_definition` of nginx.rs: the nine columns
with their declared widths, binary extractors and memoizing typed
extractors. -/
def create_nginx_log_record_table_definition : TableDefinition :=
  let columns : List ColumnDefinition := [
    ColumnDefinition.Text "ip" 15 (fun r => empty_opt r.ip)
      (fun r => let p := r.parsed_ip; (some p.1, p.2)),
    ColumnDefinition.Date "date" 26 (fun r => empty_opt r.date)
      (fun r => (r.parsed_date).map (fun p => (some p.1, p.2))),
    ColumnDefinition.Text "method" 5 (fun r => empty_opt r.method)
      (fun r => r.parsed_method),
    ColumnDefinition.Text "path" 20 (fun r => empty_opt r.path)
      (fun r => let p := r.parsed_path; (some p.1, p.2)),
    ColumnDefinition.Text "query" 50 (fun r => empty_opt r.query)
      (fun r => r.parsed_query),
    ColumnDefinition.Integer "status" 3 (fun r => empty_opt r.status)
      (fun r => r.parsed_status),
    ColumnDefinition.Integer "bytes" 10 (fun r => empty_opt r.bytes)
      (fun r => r.parsed_bytes),
    ColumnDefinition.Text "referrer" 50 (fun r => empty_opt r.referrer)
      (fun r => r.parsed_referrer),
    ColumnDefinition.Text "user_agent" 50 (fun r => empty_opt r.user_agent)
      (fun r => r.parsed_user_agent)]
  { column_map := columns.map (fun c => (c.name, c)),
    ordered_columns := columns.map (fun c => c.name) }

/-! ## parser.rs: the query AST and the show-plan compiler -/

inductive QueryValue where
  | Symbol (s : String)
  | Text (value : Bytes) (bytes : Bytes)
  | Regex (m : Bytes → Bool)
  | Int (i : Int) (bytes : Bytes)
  | Double (d : Int) (bytes : Bytes)
  | Boolean (b : Bool)
  | Date (d : Int)
  | Null

def QueryValue.is_date : QueryValue → Bool
  | .Date _ => true
  | _ => false

inductive QueryFilterBinaryOp where
  | Lt | Gt | Eq | Ne | Re | Nr
deriving DecidableEq

inductive QueryFilter where
  | BinaryOpFilter (operand1 operand2 : QueryValue) (op : QueryFilterBinaryOp)
  | AndFilter (filter1 filter2 : QueryFilter)
  | OrFilter (filter1 filter2 : QueryFilter)

structure QueryGrouping where
  groupings : List String
deriving DecidableEq

inductive QueryReducer where
  | Count | Sum | Max | Avg
deriving DecidableEq

def QueryReducer.to_string : QueryReducer → String
  | .Count => "count"
  | .Sum => "sum"
  | .Max => "max"
  | .Avg => "avg"

inductive QueryShowElement where
  | All
  | Symbol (s : String)
  | Reducer (r : QueryReducer) (s : String)
deriving DecidableEq

def QueryShowElement.is_reducer : QueryShowElement → Bool
  | .Reducer _ _ => true
  | _ => false

def QueryShowElement.is_star : QueryShowElement → Bool
  | .All => true
  | _ => false

structure QueryShow where
  elements : List QueryShowElement
deriving DecidableEq

inductive QuerySortOrdering where
  | ASC | DESC
deriving DecidableEq

structure QuerySortElement where
  field : String
  order : QuerySortOrdering
deriving DecidableEq

structure QuerySort where
  sortings : List QuerySortElement
deriving DecidableEq

structure QueryLimit where
  limit : Nat
deriving DecidableEq

/-- `RipLogQuery`. The source field `show` is called `showClause` here
(`show` is a Lean keyword). -/
structure RipLogQuery where
  filter : Option QueryFilter
  grouping : Option QueryGrouping
  showClause : Option QueryShow
  sort : Option QuerySort
  limit : Option QueryLimit
  computed_show : Option QueryShow

/-- `RipLogQuery::compute_show` of parser.rs, as a function of the raw show
clause, the grouping and the table definition.  The source mutates
`self.computed_show`; here the computed show is returned. -/
def compute_show (q : RipLogQuery) (tdef : TableDefinition) : QueryShow :=
  match q.showClause with
  | some sh =>
    match q.grouping with
    | some g =>
      let filtered_shows := sh.elements.filter (fun e => e.is_reducer)
      QueryShow.mk
        (g.groupings.map (fun s => QueryShowElement.Symbol s) ++
         (if filtered_shows.isEmpty then [QueryShowElement.Reducer QueryReducer.Count "*"]
          else []) ++
         filtered_shows)
    | none =>
      if sh.elements.any (fun e => e.is_reducer) then
        QueryShow.mk (sh.elements.filter (fun e => e.is_reducer))
      else if sh.elements.any (fun e => e.is_star) then
        QueryShow.mk (tdef.ordered_columns.map (fun c => QueryShowElement.Symbol c))
      else
        QueryShow.mk sh.elements
  | none =>
    match q.grouping with
    | some g =>
      QueryShow.mk
        (g.groupings.map (fun s => QueryShowElement.Symbol s) ++
         [QueryShowElement.Reducer QueryReducer.Count "*"])
    | none =>
      QueryShow.mk (tdef.ordered_columns.map (fun c => QueryShowElement.Symbol c))

/-! ## query.rs: record access

`Record<T>` of the source pairs the mutable record with the (shared) table
definition; both are passed explicitly here.  An outer `none` models the panic
of `column_map.get(symbol).unwrap()` on an unknown symbol, or a panic inside a
date extractor. -/

def EMPTY_BYTES : Bytes := []

/-- `needle` starts `hay` (used by substring containment). -/
def leadsWith : Bytes → Bytes → Bool
  | [], _ => true
  | _ :: _, [] => false
  | a :: as, b :: bs => a = b && leadsWith as bs

/-- `str::contains(&str)`: `needle` occurs contiguously in `hay`. -/
def containsSeq (hay needle : Bytes) : Bool :=
  match hay with
  | [] => needle.isEmpty
  | _ :: t => leadsWith needle hay || containsSeq t needle

def get_symbol_definition (tdef : TableDefinition) (symbol : String) :
    Option ColumnDefinition :=
  List.lookup symbol tdef.column_map

def get_symbol_bytes (tdef : TableDefinition) (item : BinaryNginxLogRecord)
    (symbol : String) : Option (Option Bytes) :=
  (get_symbol_definition tdef symbol).map (fun c => c.extract_binary item)

def resolve_byte_value (tdef : TableDefinition) (item : BinaryNginxLogRecord)
    (value : QueryValue) : Option (Option Bytes) :=
  match value with
  | .Text _ bytes => some (some bytes)
  | .Int _ bytes => some (some bytes)
  | .Double _ bytes => some (some bytes)
  | .Null => some (some EMPTY_BYTES)
  | .Symbol symbol => get_symbol_bytes tdef item symbol
  | .Date _ => some none
  | _ => some none

def get_symbol_string (tdef : TableDefinition) (item : BinaryNginxLogRecord)
    (symbol : String) : Option (Option Bytes × BinaryNginxLogRecord) :=
  match get_symbol_definition tdef symbol with
  | none => none
  | some (ColumnDefinition.Text _ _ _ ext) => some (ext item)
  | some _ => some (none, item)

def get_symbol_date (tdef : TableDefinition) (item : BinaryNginxLogRecord)
    (symbol : String) : Option (Option Int × BinaryNginxLogRecord) :=
  match get_symbol_definition tdef symbol with
  | none => none
  | some (ColumnDefinition.Date _ _ _ ext) => ext item
  | some _ => some (none, item)

def get_column_value_as_string (cdef : ColumnDefinition)
    (item : BinaryNginxLogRecord) : Option (Option Bytes × BinaryNginxLogRecord) :=
  match cdef with
  | .Integer _ _ _ ext => let p := ext item; some (p.1.map natToDecimal, p.2)
  | .Double _ _ _ ext => let p := ext item; some (p.1.map intToDecimal, p.2)
  | .Text _ _ _ ext => some (ext item)
  | .Date _ _ _ ext => (ext item).map (fun p => (p.1.map intToDecimal, p.2))
  | .Boolean _ _ _ ext =>
    let p := ext item
    some (p.1.map (fun b => bytesOfString (if b then "true" else "false")), p.2)

def get_column_value_as_integer (cdef : ColumnDefinition)
    (item : BinaryNginxLogRecord) : Option Nat × BinaryNginxLogRecord :=
  match cdef with
  | .Integer _ _ _ ext => ext item
  | _ => (none, item)

def get_symbol_as_string (tdef : TableDefinition) (item : BinaryNginxLogRecord)
    (symbol : String) : Option (Option Bytes × BinaryNginxLogRecord) :=
  match get_symbol_definition tdef symbol with
  | none => none
  | some cdef => get_column_value_as_string cdef item

def get_symbol_as_integer (tdef : TableDefinition) (item : BinaryNginxLogRecord)
    (symbol : String) : Option (Option Nat × BinaryNginxLogRecord) :=
  match get_symbol_definition tdef symbol with
  | none => none
  | some cdef => some (get_column_value_as_integer cdef item)

/-! ## query.rs: the filter evaluator -/

def evaluate_eq (tdef : TableDefinition) (operand1 operand2 : QueryValue)
    (item : BinaryNginxLogRecord) : Option Bool :=
  match operand2 with
  | .Null => (resolve_byte_value tdef item operand1).map (fun b => b.isNone)
  | _ =>
    match resolve_byte_value tdef item operand1,
          resolve_byte_value tdef item operand2 with
    | some b1, some b2 =>
      some (match b1, b2 with
            | some a, some b => decide (a = b)
            | _, _ => false)
    | _, _ => none

def evaluate_lt (tdef : TableDefinition) (operand1 operand2 : QueryValue)
    (item : BinaryNginxLogRecord) : Option (Bool × BinaryNginxLogRecord) :=
  if operand2.is_date then
    match operand1, operand2 with
    | .Symbol symbol, .Date date =>
      (get_symbol_date tdef item symbol).map
        (fun p => ((match p.1 with | some t => decide (t < date) | none => false), p.2))
    | _, _ => some (false, item)
  else
    match resolve_byte_value tdef item operand1,
          resolve_byte_value tdef item operand2 with
    | some b1, some b2 =>
      some ((match b1, b2 with
             | some a, some b => lexLt a b
             | _, _ => false), item)
    | _, _ => none

def evaluate_gt (tdef : TableDefinition) (operand1 operand2 : QueryValue)
    (item : BinaryNginxLogRecord) : Option (Bool × BinaryNginxLogRecord) :=
  if operand2.is_date then
    match operand1, operand2 with
    | .Symbol symbol, .Date date =>
      (get_symbol_date tdef item symbol).map
        (fun p => ((match p.1 with | some t => decide (date < t) | none => false), p.2))
    | _, _ => some (false, item)
  else
    match resolve_byte_value tdef item operand1,
          resolve_byte_value tdef item operand2 with
    | some b1, some b2 =>
      some ((match b1, b2 with
             | some a, some b => lexLt b a
             | _, _ => false), item)
    | _, _ => none

def evaluate_re (tdef : TableDefinition) (operand1 operand2 : QueryValue)
    (item : BinaryNginxLogRecord) : Option (Bool × BinaryNginxLogRecord) :=
  match operand1, operand2 with
  | .Symbol symbol, .Regex m =>
    (get_symbol_string tdef item symbol).map
      (fun p => ((match p.1 with | some s => m s | none => false), p.2))
  | .Symbol symbol, .Text value _ =>
    (get_symbol_string tdef item symbol).map
      (fun p => ((match p.1 with | some s => containsSeq s value | none => false), p.2))
  | _, _ => some (false, item)

def evaluate_binary_filter (tdef : TableDefinition) (operand1 operand2 : QueryValue)
    (op : QueryFilterBinaryOp) (item : BinaryNginxLogRecord) :
    Option (Bool × BinaryNginxLogRecord) :=
  match op with
  | .Lt => evaluate_lt tdef operand1 operand2 item
  | .Gt => evaluate_gt tdef operand1 operand2 item
  | .Eq => (evaluate_eq tdef operand1 operand2 item).map (fun b => (b, item))
  | .Ne => (evaluate_eq tdef operand1 operand2 item).map (fun b => (!b, item))
  | .Re => evaluate_re tdef operand1 operand2 item
  | .Nr => (evaluate_re tdef operand1 operand2 item).map (fun p => (!p.1, p.2))

/-- `evaluate_filter`: recursive boolean evaluation with Rust's short-circuit
`&&` / `||` (the right branch runs only when needed; record mutations of the
evaluated branches persist). -/
def evaluate_filter (tdef : TableDefinition) (filter : QueryFilter)
    (item : BinaryNginxLogRecord) : Option (Bool × BinaryNginxLogRecord) :=
  match filter with
  | .BinaryOpFilter operand1 operand2 op =>
    evaluate_binary_filter tdef operand1 operand2 op item
  | .AndFilter filter1 filter2 =>
    match evaluate_filter tdef filter1 item with
    | none => none
    | some (b1, item1) =>
      if b1 then evaluate_filter tdef filter2 item1 else some (false, item1)
  | .OrFilter filter1 filter2 =>
    match evaluate_filter tdef filter1 item with
    | none => none
    | some (b1, item1) =>
      if b1 then some (true, item1) else evaluate_filter tdef filter2 item1

def apply_filters (tdef : TableDefinition) (q : RipLogQuery)
    (item : BinaryNginxLogRecord) : Option (Bool × BinaryNginxLogRecord) :=
  match q.filter with
  | some f => evaluate_filter tdef f item
  | none => some (true, item)

/-! ## query.rs: reducers -/

/-- The four field-reducer structs with their state.  `u64` counters wrap
modulo `2 ^ 64`. -/
inductive FieldReducer where
  | CountReducer (symbol : String) (count : Nat)
  | SumReducer (symbol : String) (sum : Nat)
  | AvgReducer (symbol : String) (count : Nat) (sum : Nat)
  | MaxReducer (symbol : String) (max : Nat)
deriving DecidableEq

def FieldReducer.apply_record (fr : FieldReducer) (tdef : TableDefinition)
    (record : BinaryNginxLogRecord) :
    Option (FieldReducer × BinaryNginxLogRecord) :=
  match fr with
  | .CountReducer symbol count =>
    if symbol = "*" then some (.CountReducer symbol ((count + 1) % U64MOD), record)
    else
      match get_symbol_bytes tdef record symbol with
      | none => none
      | some v =>
        some (.CountReducer symbol (if v.isSome then (count + 1) % U64MOD else count), record)
  | .SumReducer symbol sum =>
    match get_symbol_as_integer tdef record symbol with
    | none => none
    | some (v, record1) =>
      some (.SumReducer symbol (match v with | some n => (sum + n) % U64MOD | none => sum),
            record1)
  | .AvgReducer symbol count sum =>
    match get_symbol_as_integer tdef record symbol with
    | none => none
    | some (v, record1) =>
      some ((match v with
             | some n => .AvgReducer symbol ((count + 1) % U64MOD) ((sum + n) % U64MOD)
             | none => .AvgReducer symbol count sum), record1)
  | .MaxReducer symbol mx =>
    match get_symbol_as_integer tdef record symbol with
    | none => none
    | some (v, record1) =>
      some ((match v with
             | some n => if mx < n then .MaxReducer symbol n else .MaxReducer symbol mx
             | none => .MaxReducer symbol mx), record1)

def FieldReducer.result : FieldReducer → Nat
  | .CountReducer _ count => count
  | .SumReducer _ sum => sum
  | .AvgReducer _ count sum => if 0 < count then sum / count else 0
  | .MaxReducer _ mx => mx

def FieldReducer.get_symbol : FieldReducer → String
  | .CountReducer s _ => s
  | .SumReducer s _ => s
  | .AvgReducer s _ _ => s
  | .MaxReducer s _ => s

/-- `Reducer`: the ordered vector of field reducers. -/
structure Reducer where
  field_reducers : List FieldReducer
deriving DecidableEq

/-- `Reducer::apply_record`: apply every field reducer in order, threading the
record. -/
def applyFieldReducers (frs : List FieldReducer) (tdef : TableDefinition)
    (record : BinaryNginxLogRecord) :
    Option (List FieldReducer × BinaryNginxLogRecord) :=
  match frs with
  | [] => some ([], record)
  | fr :: rest =>
    match fr.apply_record tdef record with
    | none => none
    | some (fr1, record1) =>
      match applyFieldReducers rest tdef record1 with
      | none => none
      | some (rest1, record2) => some (fr1 :: rest1, record2)

def Reducer.apply_record (r : Reducer) (tdef : TableDefinition)
    (record : BinaryNginxLogRecord) : Option (Reducer × BinaryNginxLogRecord) :=
  (applyFieldReducers r.field_reducers tdef record).map
    (fun p => (Reducer.mk p.1, p.2))

/-- `create_reducer`: one fresh field reducer per reducer element of the
computed show. -/
def create_reducer (query : RipLogQuery) : Reducer :=
  match query.computed_show with
  | some cs =>
    Reducer.mk (cs.elements.filterMap (fun e =>
      match e with
      | QueryShowElement.Reducer QueryReducer.Count symbol =>
        some (FieldReducer.CountReducer symbol 0)
      | QueryShowElement.Reducer QueryReducer.Sum symbol =>
        some (FieldReducer.SumReducer symbol 0)
      | QueryShowElement.Reducer QueryReducer.Max symbol =>
        some (FieldReducer.MaxReducer symbol 0)
      | QueryShowElement.Reducer QueryReducer.Avg symbol =>
        some (FieldReducer.AvgReducer symbol 0 0)
      | _ => none))
  | none => Reducer.mk []

/-- `create_group_key`: render each grouping column, `"null"` when missing. -/
def create_group_key (groupings : List String) (tdef : TableDefinition)
    (record : BinaryNginxLogRecord) :
    Option (List Bytes × BinaryNginxLogRecord) :=
  match groupings with
  | [] => some ([], record)
  | g :: rest =>
    match get_symbol_as_string tdef record g with
    | none => none
    | some (v, record1) =>
      match create_group_key rest tdef record1 with
      | none => none
      | some (key, record2) =>
        some ((v.getD (bytesOfString "null")) :: key, record2)

def is_aggregate_query (query : RipLogQuery) : Bool :=
  query.grouping.isSome ||
    (query.computed_show.isSome &&
      (query.computed_show.getD (QueryShow.mk [])).elements.any (fun e => e.is_reducer))

/-! ## query.rs: output fields and the record formatter -/

/-- The three `OutputField` implementations (`SymbolOutputField`,
`GroupOutputField`, `ReducedOutputField`) with their mutable `size`. -/
inductive OutputField where
  | symbolF (symbol : String) (size : Nat)
  | groupF (symbol : String) (idx : Nat) (size : Nat)
  | reducedF (reducer : String) (symbol : String) (idx : Nat) (size : Nat)
deriving DecidableEq

def OutputField.name : OutputField → String
  | .symbolF symbol _ => symbol
  | .groupF symbol _ _ => symbol
  | .reducedF reducer symbol _ _ => reducer ++ "(" ++ symbol ++ ")"

def OutputField.size : OutputField → Nat
  | .symbolF _ s => s
  | .groupF _ _ s => s
  | .reducedF _ _ _ s => s

/-- `format!(" {:width$} ", output)`: the output left-justified and padded
with spaces to the field width, one space on either side. -/
def padCell (out : Bytes) (width : Nat) : Bytes :=
  [32] ++ out ++ List.replicate (width - out.length) 32 ++ [32]

/-- The shared tail of every `format_field`: grow `size` to the output's
length when it is smaller and still under 50, then pad. -/
def sizeAfterFormat (size outLen : Nat) : Nat :=
  if size < outLen ∧ size < 50 then outLen else size

def OutputField.header : OutputField → Bytes × OutputField
  | .symbolF symbol size =>
    let size1 := if size < symbol.length then symbol.length else size
    (padCell (bytesOfString symbol) size1, .symbolF symbol size1)
  | .groupF symbol idx size =>
    let size1 := if size < symbol.length then symbol.length else size
    (padCell (bytesOfString symbol) size1, .groupF symbol idx size1)
  | .reducedF reducer symbol idx size =>
    let nm := reducer ++ "(" ++ symbol ++ ")"
    let size1 := if size < nm.length then nm.length else size
    (padCell (bytesOfString nm) size1, .reducedF reducer symbol idx size1)

/-- `OutputField::format_field`, dispatching on the three implementations.
The record travels through (a `SymbolOutputField` may fill its parsed cache);
an outer `none` is a panic inside `get_symbol_as_string`. -/
def OutputField.format_field (f : OutputField) (tdef : TableDefinition)
    (record : Option BinaryNginxLogRecord) (group_key : Option (List Bytes))
    (reducer : Option Reducer) :
    Option (Bytes × OutputField × Option BinaryNginxLogRecord) :=
  match f with
  | .symbolF symbol size =>
    match record with
    | some r =>
      match get_symbol_as_string tdef r symbol with
      | none => none
      | some (v, r1) =>
        let out := v.getD (bytesOfString "null")
        let size1 := sizeAfterFormat size out.length
        some (padCell out size1, .symbolF symbol size1, some r1)
    | none =>
      let out := bytesOfString "null"
      let size1 := sizeAfterFormat size out.length
      some (padCell out size1, .symbolF symbol size1, none)
  | .groupF symbol idx size =>
    let out :=
      match group_key with
      | some key => if idx + 1 ≤ key.length then key.getD idx [] else bytesOfString "null"
      | none => bytesOfString "null"
    let size1 := sizeAfterFormat size out.length
    some (padCell out size1, .groupF symbol idx size1, record)
  | .reducedF rname symbol idx size =>
    let out :=
      match reducer with
      | some red =>
        if idx + 1 ≤ red.field_reducers.length then
          natToDecimal ((red.field_reducers.getD idx (.CountReducer "*" 0)).result)
        else bytesOfString "null"
      | none => bytesOfString "null"
    let size1 := sizeAfterFormat size out.length
    some (padCell out size1, .reducedF rname symbol idx size1, record)

def get_group_idx (symbol : String) (query : RipLogQuery) : Option Nat :=
  match query.grouping with
  | some g => g.groupings.findIdx? (fun group => group = symbol)
  | none => none

def get_reduce_idx (symbol : String) (reducer : QueryReducer)
    (query : RipLogQuery) : Option Nat :=
  match query.computed_show with
  | some cs =>
    (cs.elements.filter (fun e => e.is_reducer)).findIdx? (fun e =>
      match e with
      | QueryShowElement.Reducer curr_reducer curr_symbol =>
        curr_reducer.to_string = reducer.to_string ∧ (symbol = "*" ∨ curr_symbol = symbol)
      | _ => false)
  | none => none

/-- `RecordFormatter`: the output fields, the optional sort field, and (model
of stdout) the data rows printed so far, one list of cells per row. -/
structure RecordFormatter where
  fields : List OutputField
  sort : Option (OutputField × QuerySortOrdering)
  rows : List (List Bytes)

/-- `RecordFormatter::new`: one output field per computed-show element; the
sort field is the first one whose name matches the first sort element. -/
def RecordFormatter.new (query : RipLogQuery) (tdef : TableDefinition) :
    RecordFormatter :=
  let sort_value := query.sort.bind (fun s => s.sortings.head?)
  let elements := (query.computed_show.getD (QueryShow.mk [])).elements
  let step := fun (acc : List OutputField × Option (OutputField × QuerySortOrdering))
                  (element : QueryShowElement) =>
    match element with
    | QueryShowElement.Symbol symbol =>
      let group_idx := get_group_idx symbol query
      let size := ((List.lookup symbol tdef.column_map).map
        (fun d => d.get_size)).getD 10
      (match group_idx with
       | some i =>
         let field := OutputField.groupF symbol i size
         (acc.1 ++ [field],
          match sort_value with
          | some sv => if acc.2.isNone ∧ sv.field = field.name
                       then some (field, sv.order) else acc.2
          | none => acc.2)
       | none => (acc.1 ++ [OutputField.symbolF symbol size], acc.2))
    | QueryShowElement.Reducer reducer symbol =>
      (match get_reduce_idx symbol reducer query with
       | some i =>
         let field := OutputField.reducedF reducer.to_string symbol i 10
         (acc.1 ++ [field],
          match sort_value with
          | some sv => if acc.2.isNone ∧ sv.field = field.name
                       then some (field, sv.order) else acc.2
          | none => acc.2)
       | none => acc)
    | _ => acc
  let built := elements.foldl step ([], none)
  { fields := built.1, sort := built.2, rows := [] }

/-- The field loop of `RecordFormatter::format_record`, threading the record
and collecting the printed cells. -/
def formatFieldsOnRecord (fields : List OutputField) (tdef : TableDefinition)
    (record : BinaryNginxLogRecord) :
    Option (List Bytes × List OutputField × BinaryNginxLogRecord) :=
  match fields with
  | [] => some ([], [], record)
  | f :: rest =>
    match f.format_field tdef (some record) none none with
    | none => none
    | some (cell, f1, r1) =>
      match formatFieldsOnRecord rest tdef (r1.getD record) with
      | none => none
      | some (cells, rest1, r2) => some (cell :: cells, f1 :: rest1, r2)

/-- `RecordFormatter::format_record`: print one data row. -/
def RecordFormatter.format_record (fmt : RecordFormatter) (tdef : TableDefinition)
    (record : BinaryNginxLogRecord) :
    Option (RecordFormatter × BinaryNginxLogRecord) :=
  match formatFieldsOnRecord fmt.fields tdef record with
  | none => none
  | some (cells, fields1, record1) =>
    some ({ fmt with fields := fields1, rows := fmt.rows ++ [cells] }, record1)

/-- `RecordFormatter::format_header_row`: the header mutates the field sizes;
the printed border and header text are not data rows and are not recorded. -/
def RecordFormatter.format_header_row (fmt : RecordFormatter) : RecordFormatter :=
  { fmt with fields := fmt.fields.map (fun f => (f.header).2) }

/-! ## query.rs: the query evaluator -/

structure QueryEvaluator where
  query : RipLogQuery
  definition : TableDefinition
  group_map : List (List Bytes × Reducer)
  global_reducer : Reducer
  aggregate : Bool
  record_formatter : RecordFormatter
  printed_count : Nat

/-- `QueryEvaluator::new`: compute the show plan, build the formatter, and in
non-aggregate mode print the header immediately. -/
def QueryEvaluator.new (query : RipLogQuery) (definition : TableDefinition) :
    QueryEvaluator :=
  let rquery := { query with computed_show := some (compute_show query definition) }
  let formatter := RecordFormatter.new rquery definition
  let aggregate := is_aggregate_query rquery
  { query := rquery,
    definition := definition,
    group_map := [],
    global_reducer := create_reducer rquery,
    aggregate := aggregate,
    record_formatter := if aggregate then formatter else formatter.format_header_row,
    printed_count := 0 }

def lookupGroup (m : List (List Bytes × Reducer)) (key : List Bytes) :
    Option Reducer :=
  match m with
  | [] => none
  | (k, r) :: rest => if k = key then some r else lookupGroup rest key

def storeGroup (m : List (List Bytes × Reducer)) (key : List Bytes)
    (r : Reducer) : List (List Bytes × Reducer) :=
  match m with
  | [] => [(key, r)]
  | (k, r0) :: rest =>
    if k = key then (k, r) :: rest else (k, r0) :: storeGroup rest key r

/-- `QueryEvaluator::aggregate`: grouped records go through the group map
(`entry(key).or_insert(fresh)` then apply), ungrouped ones through the global
reducer. -/
def QueryEvaluator.aggregate_record (ev : QueryEvaluator)
    (record : BinaryNginxLogRecord) :
    Option (QueryEvaluator × BinaryNginxLogRecord) :=
  match ev.query.grouping with
  | some g =>
    match create_group_key g.groupings ev.definition record with
    | none => none
    | some (key, record1) =>
      let entry := (lookupGroup ev.group_map key).getD (create_reducer ev.query)
      match entry.apply_record ev.definition record1 with
      | none => none
      | some (entry1, record2) =>
        some ({ ev with group_map := storeGroup ev.group_map key entry1 }, record2)
  | none =>
    match ev.global_reducer.apply_record ev.definition record with
    | none => none
    | some (red1, record1) =>
      some ({ ev with global_reducer := red1 }, record1)

/-- `QueryEvaluator::evaluate`: filter, then either fold into the aggregates
or print a data row and bump `printed_count`. -/
def QueryEvaluator.evaluate (ev : QueryEvaluator)
    (item : BinaryNginxLogRecord) :
    Option (QueryEvaluator × BinaryNginxLogRecord) :=
  match apply_filters ev.definition ev.query item with
  | none => none
  | some (passed, item1) =>
    if passed then
      if ev.aggregate then ev.aggregate_record item1
      else
        match ev.record_formatter.format_record ev.definition item1 with
        | none => none
        | some (fmt1, item2) =>
          some ({ ev with record_formatter := fmt1,
                          printed_count := ev.printed_count + 1 }, item2)
    else some (ev, item1)

/-- `QueryEvaluator::should_stop`: a limit is present and `printed_count` has
reached it. -/
def QueryEvaluator.should_stop (ev : QueryEvaluator) : Bool :=
  (ev.query.limit.map (fun l => l.limit)).isSome &&
    decide ((ev.query.limit.map (fun l => l.limit)).getD 0 ≤ ev.printed_count)

/-! ## main.rs: the per-file line loop of `evaluate_query_log_dir`

For each line of a file the driver tokenizes into the reused record and calls
`evaluate`; it never consults `should_stop`. -/

def evaluate_query_log_lines (lines : List Bytes) (ev : QueryEvaluator)
    (record : BinaryNginxLogRecord) :
    Option (QueryEvaluator × BinaryNginxLogRecord) :=
  match lines with
  | [] => some (ev, record)
  | l :: rest =>
    match read_log_record_binary l l.length record with
    | none => none
    | some record1 =>
      match ev.evaluate record1 with
      | none => none
      | some (ev1, record2) => evaluate_query_log_lines rest ev1 record2

/-! ## Spec-side definitions

Definitions in this section state what the specification asserts, for
comparison with the code-side functions above. -/

/-- Spec 3: the raw byte slice of a named column of the fixed schema. -/
def rawColumn (r : BinaryNginxLogRecord) (name : String) : Option Bytes :=
  if name = "ip" then some r.ip
  else if name = "date" then some r.date
  else if name = "method" then some r.method
  else if name = "path" then some r.path
  else if name = "query" then some r.query
  else if name = "status" then some r.status
  else if name = "bytes" then some r.bytes
  else if name = "referrer" then some r.referrer
  else if name = "user_agent" then some r.user_agent
  else none

def isSchemaColumn (name : String) : Bool :=
  name = "ip" ∨ name = "date" ∨ name = "method" ∨ name = "path" ∨
  name = "query" ∨ name = "status" ∨ name = "bytes" ∨ name = "referrer" ∨
  name = "user_agent"

/-- Spec 4.5: in a byte-level comparison, literals carry their byte form,
symbols produce their raw column bytes (absent when the slice is empty),
`Null` the empty byte string; dates, regexes and booleans have none. -/
def specValueBytes (r : BinaryNginxLogRecord) : QueryValue → Option Bytes
  | .Text _ bytes => some bytes
  | .Int _ bytes => some bytes
  | .Double _ bytes => some bytes
  | .Null => some []
  | .Symbol s => (rawColumn r s).bind (fun b => if b.isEmpty then none else some b)
  | _ => none

/-- An operand whose symbols (if any) name schema columns. -/
def validOperand : QueryValue → Bool
  | .Symbol s => isSchemaColumn s
  | _ => true

/-- Spec 4.6: the per-record contribution of a column to an integer reducer:
its decoded integer value, absent when missing or undecodable. -/
def intContribution (tdef : TableDefinition) (symbol : String)
    (r : BinaryNginxLogRecord) : Option Nat :=
  match get_symbol_definition tdef symbol with
  | some cdef => (get_column_value_as_integer cdef r).1
  | none => none

/-- Spec 4.6: the per-record contribution to `count(col)`: whether the column
has bytes present. -/
def bytesContribution (tdef : TableDefinition) (symbol : String)
    (r : BinaryNginxLogRecord) : Bool :=
  ((get_symbol_bytes tdef r symbol).getD none).isSome

/-- The present values of a contribution list. -/
def presentValues (l : List (Option Nat)) : List Nat := l.filterMap id

/-- Driving one field reducer over a stream of records, as the ungrouped
evaluator does (each record is applied once; its mutated copy is dropped
because the driver retokenizes before the next line). -/
def applyRecords (fr : FieldReducer) (tdef : TableDefinition) :
    List BinaryNginxLogRecord → Option FieldReducer
  | [] => some fr
  | r :: rest =>
    match fr.apply_record tdef r with
    | none => none
    | some (fr1, _) => applyRecords fr1 tdef rest

/-- Frame: the nine raw byte columns are unchanged. -/
def rawPreserved (r r1 : BinaryNginxLogRecord) : Prop :=
  r1.ip = r.ip ∧ r1.date = r.date ∧ r1.method = r.method ∧ r1.path = r.path ∧
  r1.query = r.query ∧ r1.status = r.status ∧ r1.bytes = r.bytes ∧
  r1.referrer = r.referrer ∧ r1.user_agent = r.user_agent

/-- A cache slot may only go from unset to set; a set slot keeps its value. -/
def slotMono {α : Type} (a b : Option α) : Prop := ∀ v, a = some v → b = some v

def cacheMonotone (r r1 : BinaryNginxLogRecord) : Prop :=
  slotMono r.parsed_record.ip r1.parsed_record.ip ∧
  slotMono r.parsed_record.date r1.parsed_record.date ∧
  slotMono r.parsed_record.method r1.parsed_record.method ∧
  slotMono r.parsed_record.path r1.parsed_record.path ∧
  slotMono r.parsed_record.query r1.parsed_record.query ∧
  slotMono r.parsed_record.status r1.parsed_record.status ∧
  slotMono r.parsed_record.bytes r1.parsed_record.bytes ∧
  slotMono r.parsed_record.referrer r1.parsed_record.referrer ∧
  slotMono r.parsed_record.user_agent r1.parsed_record.user_agent

/-! ## Concrete sample inputs for the closed theorems -/

/-- A well-formed nginx combined log line. -/
def sampleLine : Bytes :=
  bytesOfString "1.1.1.1 - - [10/Oct/2020:13:55:36 +0000] \"GET /u HTTP/1.1\" 200 42 \"-\" \"UA\""

/-- A malformed line: the `]` closing the date is missing. -/
def lineMissingBrace : Bytes :=
  bytesOfString "1.1.1.1 - - [10/Oct/2020 \"GET / HTTP/1.1\" 200 42 \"-\" \"UA\""

/-- The non-aggregate query `show ip | limit 1`. -/
def queryShowIpLimit1 : RipLogQuery :=
  { filter := none, grouping := none,
    showClause := some (QueryShow.mk [QueryShowElement.Symbol "ip"]),
    sort := none, limit := some (QueryLimit.mk 1), computed_show := none }

/-- The aggregate query `group ip | limit 0`. -/
def queryGroupIpLimit0 : RipLogQuery :=
  { filter := none, grouping := some (QueryGrouping.mk ["ip"]),
    showClause := none, sort := none, limit := some (QueryLimit.mk 0),
    computed_show := none }

/-- A tokenized record whose referrer is missing (empty bytes), caches clear. -/
def recEmptyReferrer : BinaryNginxLogRecord :=
  { BinaryNginxLogRecord.empty with
    ip := bytesOfString "1.1.1.1", status := bytesOfString "200" }

/-- A record whose date bytes are unparseable. -/
def recBadDate : BinaryNginxLogRecord :=
  { BinaryNginxLogRecord.empty with date := bytesOfString "garbage" }

/-- A record whose status bytes are not a number. -/
def recBadStatus : BinaryNginxLogRecord :=
  { BinaryNginxLogRecord.empty with status := bytesOfString "12x" }

/-- Two records with integer `bytes` values 10 and 32, for the reducer
witness. -/
def recBytes10 : BinaryNginxLogRecord :=
  { BinaryNginxLogRecord.empty with bytes := bytesOfString "10" }

def recBytes32 : BinaryNginxLogRecord :=
  { BinaryNginxLogRecord.empty with bytes := bytesOfString "32" }

/-! ## Theorems -/

set_option maxRecDepth 40000

/-- Fold a permutation through a right-commutative `foldl`. -/
theorem foldl_perm_of_comm {α β : Type} (f : β → α → β)
    (hf : ∀ b a1 a2, f (f b a1) a2 = f (f b a2) a1) :
    ∀ {l1 l2 : List α}, l1.Perm l2 → ∀ b, l1.foldl f b = l2.foldl f b := by
  intro l1 l2 h
  induction h with
  | nil => intro b; rfl
  | cons x h ih => intro b; simp only [List.foldl_cons]; exact ih _
  | swap x y l => intro b; simp only [List.foldl_cons]; rw [hf]
  | trans h1 h2 ih1 ih2 => intro b; exact (ih1 b).trans (ih2 b)

theorem get_symbol_as_integer_eq {tdef : TableDefinition} {sym : String}
    {cdef : ColumnDefinition} (h : get_symbol_definition tdef sym = some cdef)
    (r : BinaryNginxLogRecord) :
    get_symbol_as_integer tdef r sym = some (get_column_value_as_integer cdef r) := by
  unfold get_symbol_as_integer
  rw [h]

theorem intContribution_eq {tdef : TableDefinition} {sym : String}
    {cdef : ColumnDefinition} (h : get_symbol_definition tdef sym = some cdef)
    (r : BinaryNginxLogRecord) :
    intContribution tdef sym r = (get_column_value_as_integer cdef r).1 := by
  unfold intContribution
  rw [h]

theorem bytesContribution_eq {tdef : TableDefinition} {sym : String}
    {cdef : ColumnDefinition} (h : get_symbol_definition tdef sym = some cdef)
    (r : BinaryNginxLogRecord) :
    bytesContribution tdef sym r = (cdef.extract_binary r).isSome := by
  unfold bytesContribution get_symbol_bytes
  rw [h]
  rfl

theorem applyRecords_count_star (tdef : TableDefinition) :
    ∀ (rs : List BinaryNginxLogRecord) (c : Nat), c < U64MOD →
      applyRecords (FieldReducer.CountReducer "*" c) tdef rs
        = some (FieldReducer.CountReducer "*" ((c + rs.length) % U64MOD)) := by
  intro rs
  induction rs with
  | nil =>
    intro c hc
    simp [applyRecords, Nat.mod_eq_of_lt hc]
  | cons r rest ih =>
    intro c hc
    rw [applyRecords]
    simp only [FieldReducer.apply_record, if_true]
    rw [ih _ (Nat.mod_lt _ (by decide))]
    rw [Nat.mod_add_mod, List.length_cons]
    have harith : c + 1 + rest.length = c + (rest.length + 1) := by omega
    rw [harith]

theorem applyRecords_count_sym {tdef : TableDefinition} {sym : String}
    {cdef : ColumnDefinition} (hns : ¬sym = "*")
    (hcol : get_symbol_definition tdef sym = some cdef) :
    ∀ (rs : List BinaryNginxLogRecord) (c : Nat), c < U64MOD →
      applyRecords (FieldReducer.CountReducer sym c) tdef rs
        = some (FieldReducer.CountReducer sym
            ((c + (rs.filter (fun r => bytesContribution tdef sym r)).length) % U64MOD)) := by
  intro rs
  induction rs with
  | nil =>
    intro c hc
    simp [applyRecords, Nat.mod_eq_of_lt hc]
  | cons r rest ih =>
    intro c hc
    rw [applyRecords]
    simp only [FieldReducer.apply_record, if_neg hns]
    have hb : get_symbol_bytes tdef r sym = some (cdef.extract_binary r) := by
      unfold get_symbol_bytes; rw [hcol]; rfl
    rw [hb]
    rcases hv : (cdef.extract_binary r).isSome with _ | _
    · have : bytesContribution tdef sym r = false := by rw [bytesContribution_eq hcol]; exact hv
      simp only [hv, if_neg]
      rw [List.filter_cons, this]
      simp only [Bool.false_eq_true, if_false]
      exact ih c hc
    · have : bytesContribution tdef sym r = true := by rw [bytesContribution_eq hcol]; exact hv
      simp only [hv, if_pos]
      rw [List.filter_cons, this]
      simp only [if_pos]
      rw [ih _ (Nat.mod_lt _ (by decide))]
      rw [Nat.mod_add_mod, List.length_cons]
      have harith : c + 1 + (List.filter (fun r => bytesContribution tdef sym r) rest).length
          = c + ((List.filter (fun r => bytesContribution tdef sym r) rest).length + 1) := by omega
      rw [harith]

theorem applyRecords_sum {tdef : TableDefinition} {sym : String}
    {cdef : ColumnDefinition} (hcol : get_symbol_definition tdef sym = some cdef) :
    ∀ (rs : List BinaryNginxLogRecord) (s : Nat), s < U64MOD →
      applyRecords (FieldReducer.SumReducer sym s) tdef rs
        = some (FieldReducer.SumReducer sym
            ((s + (presentValues (rs.map (intContribution tdef sym))).sum) % U64MOD)) := by
  intro rs
  induction rs with
  | nil =>
    intro s hs
    simp [applyRecords, presentValues, Nat.mod_eq_of_lt hs]
  | cons r rest ih =>
    intro s hs
    rw [applyRecords]
    simp only [FieldReducer.apply_record]
    rw [get_symbol_as_integer_eq hcol]
    rw [List.map_cons, intContribution_eq hcol]
    rcases hv : (get_column_value_as_integer cdef r).1 with _ | n
    · simp only [hv, presentValues, List.filterMap_cons, id_eq]
      exact ih s hs
    · simp only [hv, presentValues, List.filterMap_cons, id_eq, List.sum_cons]
      rw [ih _ (Nat.mod_lt _ (by decide))]
      rw [Nat.mod_add_mod]
      have harith : s + n + ((rest.map (intContribution tdef sym)).filterMap id).sum
          = s + (n + ((rest.map (intContribution tdef sym)).filterMap id).sum) := by
        omega
      simp only [presentValues]
      rw [harith]

theorem applyRecords_max {tdef : TableDefinition} {sym : String}
    {cdef : ColumnDefinition} (hcol : get_symbol_definition tdef sym = some cdef) :
    ∀ (rs : List BinaryNginxLogRecord) (m : Nat),
      applyRecords (FieldReducer.MaxReducer sym m) tdef rs
        = some (FieldReducer.MaxReducer sym
            ((presentValues (rs.map (intContribution tdef sym))).foldl Nat.max m)) := by
  intro rs
  induction rs with
  | nil =>
    intro m
    simp [applyRecords, presentValues]
  | cons r rest ih =>
    intro m
    rw [applyRecords]
    simp only [FieldReducer.apply_record]
    rw [get_symbol_as_integer_eq hcol]
    rw [List.map_cons, intContribution_eq hcol]
    rcases hv : (get_column_value_as_integer cdef r).1 with _ | n
    · simp only [hv, presentValues, List.filterMap_cons, id_eq]
      exact ih m
    · simp only [hv, presentValues, List.filterMap_cons, id_eq, List.foldl_cons]
      have hmax : (if m < n then FieldReducer.MaxReducer sym n else FieldReducer.MaxReducer sym m)
          = FieldReducer.MaxReducer sym (Nat.max m n) := by
        by_cases h : m < n
        · rw [if_pos h]
          congr 1
          exact (Nat.max_eq_right (Nat.le_of_lt h)).symm
        · rw [if_neg h]
          congr 1
          exact (Nat.max_eq_left (Nat.not_lt.mp h)).symm
      rw [hmax]
      exact ih (Nat.max m n)

theorem applyRecords_avg {tdef : TableDefinition} {sym : String}
    {cdef : ColumnDefinition} (hcol : get_symbol_definition tdef sym = some cdef) :
    ∀ (rs : List BinaryNginxLogRecord) (c s : Nat), c < U64MOD → s < U64MOD →
      applyRecords (FieldReducer.AvgReducer sym c s) tdef rs
        = some (FieldReducer.AvgReducer sym
            ((c + (presentValues (rs.map (intContribution tdef sym))).length) % U64MOD)
            ((s + (presentValues (rs.map (intContribution tdef sym))).sum) % U64MOD)) := by
  intro rs
  induction rs with
  | nil =>
    intro c s hc hs
    simp [applyRecords, presentValues, Nat.mod_eq_of_lt hc, Nat.mod_eq_of_lt hs]
  | cons r rest ih =>
    intro c s hc hs
    rw [applyRecords]
    simp only [FieldReducer.apply_record]
    rw [get_symbol_as_integer_eq hcol]
    rw [List.map_cons, intContribution_eq hcol]
    rcases hv : (get_column_value_as_integer cdef r).1 with _ | n
    · simp only [hv, presentValues, List.filterMap_cons, id_eq]
      exact ih c s hc hs
    · simp only [hv, presentValues, List.filterMap_cons, id_eq, List.sum_cons, List.length_cons]
      rw [ih _ _ (Nat.mod_lt _ (by decide)) (Nat.mod_lt _ (by decide))]
      rw [Nat.mod_add_mod, Nat.mod_add_mod]
      have h1 : c + 1 + ((rest.map (intContribution tdef sym)).filterMap id).length
          = c + (((rest.map (intContribution tdef sym)).filterMap id).length + 1) := by omega
      have h2 : s + n + ((rest.map (intContribution tdef sym)).filterMap id).sum
          = s + (n + ((rest.map (intContribution tdef sym)).filterMap id).sum) := by omega
      simp only [presentValues]
      rw [h1, h2]

/-- C6: for an ungrouped reducer driven over a record stream, the `count`,
`sum` and `max` results are the order-independent folds of the per-record
contributions (count of present values, wrapped sum of present integer
values, maximum of present integer values starting at 0), and the `avg`
result is `sum / count` by integer division when `count > 0` and `0`
otherwise; every result is invariant under permutation of the stream. -/
theorem ungrouped_reducer_fold (tdef : TableDefinition) (sym : String)
    (rs rs' : List BinaryNginxLogRecord)
    (hns : ¬sym = "*")
    (hcol : (get_symbol_definition tdef sym).isSome = true)
    (hperm : rs.Perm rs') :
    (applyRecords (FieldReducer.CountReducer "*" 0) tdef rs
       = some (FieldReducer.CountReducer "*" (rs.length % U64MOD))) ∧
    (applyRecords (FieldReducer.CountReducer sym 0) tdef rs
       = some (FieldReducer.CountReducer sym
           ((rs.filter (fun r => bytesContribution tdef sym r)).length % U64MOD))) ∧
    (applyRecords (FieldReducer.SumReducer sym 0) tdef rs
       = some (FieldReducer.SumReducer sym
           ((presentValues (rs.map (intContribution tdef sym))).sum % U64MOD))) ∧
    (applyRecords (FieldReducer.MaxReducer sym 0) tdef rs
       = some (FieldReducer.MaxReducer sym
           ((presentValues (rs.map (intContribution tdef sym))).foldl Nat.max 0))) ∧
    (applyRecords (FieldReducer.AvgReducer sym 0 0) tdef rs
       = some (FieldReducer.AvgReducer sym
           ((presentValues (rs.map (intContribution tdef sym))).length % U64MOD)
           ((presentValues (rs.map (intContribution tdef sym))).sum % U64MOD))) ∧
    (∀ c s : Nat, (FieldReducer.AvgReducer sym c s).result
       = if 0 < c then s / c else 0) ∧
    (applyRecords (FieldReducer.CountReducer "*" 0) tdef rs
       = applyRecords (FieldReducer.CountReducer "*" 0) tdef rs') ∧
    (applyRecords (FieldReducer.CountReducer sym 0) tdef rs
       = applyRecords (FieldReducer.CountReducer sym 0) tdef rs') ∧
    (applyRecords (FieldReducer.SumReducer sym 0) tdef rs
       = applyRecords (FieldReducer.SumReducer sym 0) tdef rs') ∧
    (applyRecords (FieldReducer.MaxReducer sym 0) tdef rs
       = applyRecords (FieldReducer.MaxReducer sym 0) tdef rs') ∧
    (applyRecords (FieldReducer.AvgReducer sym 0 0) tdef rs
       = applyRecords (FieldReducer.AvgReducer sym 0 0) tdef rs') := by
  rcases Option.isSome_iff_exists.mp hcol with ⟨cdef, hc⟩
  have hm : (0 : Nat) < U64MOD := by decide
  have hstar := fun l => applyRecords_count_star tdef l 0 hm
  have hcnt := fun l => applyRecords_count_sym hns hc l 0 hm
  have hsum := fun l => applyRecords_sum hc l 0 hm
  have hmax := fun l => applyRecords_max hc l 0
  have havg := fun l => applyRecords_avg hc l 0 0 hm hm
  simp only [Nat.zero_add] at hstar hcnt hsum havg
  refine ⟨hstar rs, hcnt rs, hsum rs, hmax rs, havg rs, fun c s => rfl,
    ?_, ?_, ?_, ?_, ?_⟩
  · rw [hstar rs, hstar rs', hperm.length_eq]
  · rw [hcnt rs, hcnt rs', (hperm.filter _).length_eq]
  · rw [hsum rs, hsum rs']
    simp only [presentValues]
    rw [((hperm.map _).filterMap id).sum_eq]
  · rw [hmax rs, hmax rs']
    simp only [presentValues]
    congr 2
    exact foldl_perm_of_comm Nat.max
      (fun b a1 a2 => Nat.max_right_comm b a1 a2) ((hperm.map _).filterMap id) 0
  · rw [havg rs, havg rs']
    simp only [presentValues]
    rw [((hperm.map _).filterMap id).sum_eq, ((hperm.map _).filterMap id).length_eq]

/-- C6 witness: the `sum(bytes)` fold over two concrete records. -/
theorem ungrouped_reducer_fold_witness :
    applyRecords (FieldReducer.SumReducer "bytes" 0)
        create_nginx_log_record_table_definition [recBytes10, recBytes32]
      = some (FieldReducer.SumReducer "bytes"
          ((presentValues ([recBytes10, recBytes32].map
              (intContribution create_nginx_log_record_table_definition "bytes"))).sum
            % U64MOD)) :=
  (ungrouped_reducer_fold create_nginx_log_record_table_definition "bytes"
    [recBytes10, recBytes32] [recBytes32, recBytes10]
    (by decide) (by rfl) (List.Perm.swap recBytes32 recBytes10 [])).2.2.1

/-- C8 (amended): `should_stop` ignores the aggregate flag — in every mode it
is true exactly when a limit is present and `printed_count` has reached it —
and aggregate evaluation never changes `printed_count` or prints a data row,
so an aggregate query stops early exactly when the limit is `0`. -/
theorem should_stop_semantics (ev : QueryEvaluator) (r : BinaryNginxLogRecord) :
    (ev.should_stop = true ↔
      ∃ l, ev.query.limit = some l ∧ l.limit ≤ ev.printed_count) ∧
    (ev.aggregate = true → ∀ ev' r', ev.evaluate r = some (ev', r') →
      ev'.printed_count = ev.printed_count ∧
      ev'.record_formatter.rows = ev.record_formatter.rows ∧
      ev'.aggregate = ev.aggregate ∧ ev'.query = ev.query) := by
  constructor
  · unfold QueryEvaluator.should_stop
    rcases hl : ev.query.limit with _ | l
    · simp
    · simp
  · intro hagg ev' r' hev
    unfold QueryEvaluator.evaluate at hev
    rcases haf : apply_filters ev.definition ev.query r with _ | ⟨b, item1⟩ <;>
      rw [haf] at hev
    · cases hev
    · rcases b with _ | _
      · simp only [Bool.false_eq_true, if_false] at hev
        cases hev
        exact ⟨rfl, rfl, rfl, rfl⟩
      · simp only [if_true, hagg] at hev
        unfold QueryEvaluator.aggregate_record at hev
        rcases hg : ev.query.grouping with _ | g <;> rw [hg] at hev <;> dsimp only at hev
        · rcases har : ev.global_reducer.apply_record ev.definition item1 with _ | ⟨red1, rec1⟩ <;>
            rw [har] at hev
          · cases hev
          · cases hev
            exact ⟨rfl, rfl, rfl, rfl⟩
        · rcases hk : create_group_key g.groupings ev.definition item1 with _ | ⟨key, rec1⟩ <;>
            rw [hk] at hev <;> dsimp only at hev
          · cases hev
          · rcases he : ((lookupGroup ev.group_map key).getD (create_reducer ev.query)).apply_record
                ev.definition rec1 with _ | ⟨entry1, rec2⟩ <;> rw [he] at hev
            · cases hev
            · cases hev
              exact ⟨rfl, rfl, rfl, rfl⟩

/-- C4 (amended): a field width only grows, growth happens only while the
current width is below 50, the new width fits the observed value exactly (it
may overshoot the 50 cap), and the printed cell is the value padded to the
field width plus one space either side. -/
theorem width_growth_semantics (symbol : String) (idx sz L w : Nat)
    (out gout : Bytes) (key : List Bytes) (tdef : TableDefinition)
    (r : BinaryNginxLogRecord) :
    (sz ≤ sizeAfterFormat sz L) ∧
    (50 ≤ sz → sizeAfterFormat sz L = sz) ∧
    (sz < 50 → L ≤ sizeAfterFormat sz L) ∧
    (sizeAfterFormat sz L ≤ Nat.max sz L) ∧
    ((padCell out w).length = Nat.max w out.length + 2) ∧
    (gout = (if idx + 1 ≤ key.length then key.getD idx [] else bytesOfString "null") →
      OutputField.format_field (OutputField.groupF symbol idx sz) tdef none (some key) none
        = some (padCell gout (sizeAfterFormat sz gout.length),
                OutputField.groupF symbol idx (sizeAfterFormat sz gout.length), none)) ∧
    (∀ cell f' rec',
      OutputField.format_field (OutputField.symbolF symbol sz) tdef (some r) none none
        = some (cell, f', rec') →
      ∃ v, cell = padCell v (sizeAfterFormat sz v.length) ∧
        f' = OutputField.symbolF symbol (sizeAfterFormat sz v.length)) := by
  refine ⟨?_, ?_, ?_, ?_, ?_, ?_, ?_⟩
  · unfold sizeAfterFormat
    by_cases h : sz < L ∧ sz < 50
    · rw [if_pos h]; omega
    · rw [if_neg h]
  · intro h50
    unfold sizeAfterFormat
    rw [if_neg]
    omega
  · intro h50
    unfold sizeAfterFormat
    by_cases h : sz < L ∧ sz < 50
    · rw [if_pos h]
    · rw [if_neg h]; omega
  · unfold sizeAfterFormat
    by_cases h : sz < L ∧ sz < 50
    · rw [if_pos h]
      exact Nat.le_max_right sz L
    · rw [if_neg h]
      exact Nat.le_max_left sz L
  · unfold padCell
    simp only [List.length_append, List.length_replicate, List.length_cons,
      List.length_nil]
    by_cases h : out.length ≤ w
    · have hm : Nat.max w out.length = w := Nat.max_eq_left h
      omega
    · have hm : Nat.max w out.length = out.length :=
        Nat.max_eq_right (Nat.le_of_not_le h)
      omega
  · intro hg
    subst hg
    rfl
  · intro cell f' rec' hf
    unfold OutputField.format_field at hf
    dsimp only at hf
    rcases hs : get_symbol_as_string tdef r symbol with _ | ⟨v, r1⟩ <;> rw [hs] at hf <;>
      dsimp only at hf
    · cases hf
    · cases hf
      exact ⟨v.getD (bytesOfString "null"), rfl, rfl⟩

theorem lookup_none_of_not_schema {s : String}
    (h : isSchemaColumn s = false) :
    get_symbol_definition create_nginx_log_record_table_definition s = none := by
  unfold isSchemaColumn at h
  simp only [decide_eq_false_iff_not, not_or] at h
  obtain ⟨h1, h2, h3, h4, h5, h6, h7, h8, h9⟩ := h
  unfold get_symbol_definition create_nginx_log_record_table_definition
  have b1 : (s == "ip") = false := beq_eq_false_iff_ne.mpr h1
  have b2 : (s == "date") = false := beq_eq_false_iff_ne.mpr h2
  have b3 : (s == "method") = false := beq_eq_false_iff_ne.mpr h3
  have b4 : (s == "path") = false := beq_eq_false_iff_ne.mpr h4
  have b5 : (s == "query") = false := beq_eq_false_iff_ne.mpr h5
  have b6 : (s == "status") = false := beq_eq_false_iff_ne.mpr h6
  have b7 : (s == "bytes") = false := beq_eq_false_iff_ne.mpr h7
  have b8 : (s == "referrer") = false := beq_eq_false_iff_ne.mpr h8
  have b9 : (s == "user_agent") = false := beq_eq_false_iff_ne.mpr h9
  simp [List.lookup, ColumnDefinition.name, b1, b2, b3, b4, b5, b6, b7, b8, b9]

theorem symbol_cases (s : String) :
    get_symbol_definition create_nginx_log_record_table_definition s = none ∨
      isSchemaColumn s = true := by
  rcases h : isSchemaColumn s with _ | _
  · exact Or.inl (lookup_none_of_not_schema h)
  · exact Or.inr rfl

-- smoke tests for the rfl-reduction style used in the case analyses
example (r : BinaryNginxLogRecord) :
    get_symbol_string create_nginx_log_record_table_definition r "referrer"
      = some r.parsed_referrer := rfl

example (r : BinaryNginxLogRecord) :
    get_symbol_string create_nginx_log_record_table_definition r "status"
      = some (none, r) := rfl

example (r : BinaryNginxLogRecord) :
    get_symbol_date create_nginx_log_record_table_definition r "date"
      = (r.parsed_date).map (fun p => (some p.1, p.2)) := rfl

example (r : BinaryNginxLogRecord) :
    get_symbol_date create_nginx_log_record_table_definition r "ip"
      = some (none, r) := rfl

example (r : BinaryNginxLogRecord) :
    get_symbol_bytes create_nginx_log_record_table_definition r "ip"
      = some (empty_opt r.ip) := rfl

example (r : BinaryNginxLogRecord) :
    get_symbol_string create_nginx_log_record_table_definition r "ip"
      = some (let p := r.parsed_ip; (some p.1, p.2)) := rfl

theorem empty_opt_eq (b : Bytes) :
    empty_opt b = if b.isEmpty then none else some b := by
  cases b <;> rfl

theorem empty_opt_eq_none {b : Bytes} (h : empty_opt b = none) : b = [] := by
  cases b with
  | nil => rfl
  | cons x t => simp [empty_opt] at h

theorem parseNginxDate_nil : parseNginxDate [] = none := by decide

theorem get_symbol_bytes_schema {s : String} (hs : isSchemaColumn s = true)
    (r : BinaryNginxLogRecord) :
    get_symbol_bytes create_nginx_log_record_table_definition r s
      = some (empty_opt ((rawColumn r s).getD [])) := by
  unfold isSchemaColumn at hs
  simp only [decide_eq_true_eq] at hs
  rcases hs with h|h|h|h|h|h|h|h|h <;> subst h <;> rfl

theorem resolve_of_valid {v : QueryValue} (hv : validOperand v = true)
    (r : BinaryNginxLogRecord) :
    ∃ b, resolve_byte_value create_nginx_log_record_table_definition r v = some b := by
  cases v with
  | Symbol s =>
    have hs : isSchemaColumn s = true := hv
    exact ⟨_, get_symbol_bytes_schema hs r⟩
  | Text a b => exact ⟨_, rfl⟩
  | Regex m => exact ⟨_, rfl⟩
  | Int i b => exact ⟨_, rfl⟩
  | Double d b => exact ⟨_, rfl⟩
  | Boolean b => exact ⟨_, rfl⟩
  | Date d => exact ⟨_, rfl⟩
  | Null => exact ⟨_, rfl⟩

theorem lt_date_non_date_col {s : String} (hs : isSchemaColumn s = true)
    (hneq : ¬s = "date") (r : BinaryNginxLogRecord) (d : Int) :
    evaluate_lt create_nginx_log_record_table_definition
      (QueryValue.Symbol s) (QueryValue.Date d) r = some (false, r) := by
  unfold isSchemaColumn at hs
  simp only [decide_eq_true_eq] at hs
  rcases hs with h|h|h|h|h|h|h|h|h <;> subst h
  · rfl
  · exact absurd rfl hneq
  all_goals rfl

theorem gt_date_non_date_col {s : String} (hs : isSchemaColumn s = true)
    (hneq : ¬s = "date") (r : BinaryNginxLogRecord) (d : Int) :
    evaluate_gt create_nginx_log_record_table_definition
      (QueryValue.Symbol s) (QueryValue.Date d) r = some (false, r) := by
  unfold isSchemaColumn at hs
  simp only [decide_eq_true_eq] at hs
  rcases hs with h|h|h|h|h|h|h|h|h <;> subst h
  · rfl
  · exact absurd rfl hneq
  all_goals rfl

theorem get_symbol_string_missing {s : String} {r : BinaryNginxLogRecord}
    (hs : isSchemaColumn s = true) (hni : ¬s = "ip") (hnp : ¬s = "path")
    (hmiss : get_symbol_bytes create_nginx_log_record_table_definition r s = some none)
    (hfresh : r.parsed_record = ParsedNginxLogRecord.empty) :
    ∃ r1, get_symbol_string create_nginx_log_record_table_definition r s
      = some (none, r1) := by
  unfold isSchemaColumn at hs
  simp only [decide_eq_true_eq] at hs
  rcases hs with h|h|h|h|h|h|h|h|h <;> subst h
  · exact absurd rfl hni
  · exact ⟨r, rfl⟩
  · -- method
    have hraw : r.method = [] := by
      have he : get_symbol_bytes create_nginx_log_record_table_definition r "method"
          = some (empty_opt r.method) := rfl
      rw [he] at hmiss
      exact empty_opt_eq_none (Option.some.inj hmiss)
    have hfst : (r.parsed_method).1 = none := by
      unfold BinaryNginxLogRecord.parsed_method
      rw [hfresh, hraw]
      simp [ParsedNginxLogRecord.empty]
    have he : get_symbol_string create_nginx_log_record_table_definition r "method"
        = some r.parsed_method := rfl
    exact ⟨(r.parsed_method).2, by rw [he]; exact congrArg some (Prod.ext hfst rfl)⟩
  · exact absurd rfl hnp
  · -- query
    have hraw : r.query = [] := by
      have he : get_symbol_bytes create_nginx_log_record_table_definition r "query"
          = some (empty_opt r.query) := rfl
      rw [he] at hmiss
      exact empty_opt_eq_none (Option.some.inj hmiss)
    have hfst : (r.parsed_query).1 = none := by
      unfold BinaryNginxLogRecord.parsed_query
      rw [hfresh, hraw]
      simp [ParsedNginxLogRecord.empty]
    have he : get_symbol_string create_nginx_log_record_table_definition r "query"
        = some r.parsed_query := rfl
    exact ⟨(r.parsed_query).2, by rw [he]; exact congrArg some (Prod.ext hfst rfl)⟩
  · exact ⟨r, rfl⟩
  · exact ⟨r, rfl⟩
  · -- referrer
    have hraw : r.referrer = [] := by
      have he : get_symbol_bytes create_nginx_log_record_table_definition r "referrer"
          = some (empty_opt r.referrer) := rfl
      rw [he] at hmiss
      exact empty_opt_eq_none (Option.some.inj hmiss)
    have hfst : (r.parsed_referrer).1 = none := by
      unfold BinaryNginxLogRecord.parsed_referrer
      rw [hfresh, hraw]
      simp [ParsedNginxLogRecord.empty]
    have he : get_symbol_string create_nginx_log_record_table_definition r "referrer"
        = some r.parsed_referrer := rfl
    exact ⟨(r.parsed_referrer).2, by rw [he]; exact congrArg some (Prod.ext hfst rfl)⟩
  · -- user_agent
    have hraw : r.user_agent = [] := by
      have he : get_symbol_bytes create_nginx_log_record_table_definition r "user_agent"
          = some (empty_opt r.user_agent) := rfl
      rw [he] at hmiss
      exact empty_opt_eq_none (Option.some.inj hmiss)
    have hfst : (r.parsed_user_agent).1 = none := by
      unfold BinaryNginxLogRecord.parsed_user_agent
      rw [hfresh, hraw]
      simp [ParsedNginxLogRecord.empty]
    have he : get_symbol_string create_nginx_log_record_table_definition r "user_agent"
        = some r.parsed_user_agent := rfl
    exact ⟨(r.parsed_user_agent).2, by rw [he]; exact congrArg some (Prod.ext hfst rfl)⟩

/-- C3 (amended): when the left operand is a schema symbol whose column value
is missing, `eq Null` is true and `eq` against any other present literal is
false, but `ne` is then TRUE (the negation of `eq`), and `nr` is TRUE for
non-`ip`/`path` columns (negation of `re`); `lt`/`gt` are false except that a
`Date` right operand on the `date` column panics (decode of missing bytes),
and `re` on missing is false. -/
theorem missing_lhs_filter_semantics (s : String) (r : BinaryNginxLogRecord)
    (o2 : QueryValue) (d : Int) (m : Bytes → Bool) (tv tb : Bytes)
    (hmiss : get_symbol_bytes create_nginx_log_record_table_definition r s = some none)
    (hfresh : r.parsed_record = ParsedNginxLogRecord.empty) :
    (evaluate_eq create_nginx_log_record_table_definition
       (QueryValue.Symbol s) QueryValue.Null r = some true) ∧
    (validOperand o2 = true → ¬o2 = QueryValue.Null →
       evaluate_eq create_nginx_log_record_table_definition
         (QueryValue.Symbol s) o2 r = some false) ∧
    (evaluate_binary_filter create_nginx_log_record_table_definition
       (QueryValue.Symbol s) QueryValue.Null QueryFilterBinaryOp.Ne r
       = some (false, r)) ∧
    (validOperand o2 = true → ¬o2 = QueryValue.Null →
       evaluate_binary_filter create_nginx_log_record_table_definition
         (QueryValue.Symbol s) o2 QueryFilterBinaryOp.Ne r = some (true, r)) ∧
    (validOperand o2 = true → ¬o2.is_date = true →
       evaluate_lt create_nginx_log_record_table_definition
         (QueryValue.Symbol s) o2 r = some (false, r)) ∧
    (validOperand o2 = true → ¬o2.is_date = true →
       evaluate_gt create_nginx_log_record_table_definition
         (QueryValue.Symbol s) o2 r = some (false, r)) ∧
    (¬s = "date" →
       evaluate_lt create_nginx_log_record_table_definition
         (QueryValue.Symbol s) (QueryValue.Date d) r = some (false, r)) ∧
    (¬s = "date" →
       evaluate_gt create_nginx_log_record_table_definition
         (QueryValue.Symbol s) (QueryValue.Date d) r = some (false, r)) ∧
    (s = "date" →
       evaluate_lt create_nginx_log_record_table_definition
         (QueryValue.Symbol s) (QueryValue.Date d) r = none) ∧
    (s = "date" →
       evaluate_gt create_nginx_log_record_table_definition
         (QueryValue.Symbol s) (QueryValue.Date d) r = none) ∧
    (¬s = "ip" → ¬s = "path" →
       (evaluate_re create_nginx_log_record_table_definition
         (QueryValue.Symbol s) (QueryValue.Regex m) r).map Prod.fst = some false) ∧
    (¬s = "ip" → ¬s = "path" →
       (evaluate_re create_nginx_log_record_table_definition
         (QueryValue.Symbol s) (QueryValue.Text tv tb) r).map Prod.fst = some false) ∧
    (¬s = "ip" → ¬s = "path" →
       (evaluate_binary_filter create_nginx_log_record_table_definition
         (QueryValue.Symbol s) (QueryValue.Regex m) QueryFilterBinaryOp.Nr r).map Prod.fst
         = some true) ∧
    (s = "ip" →
       (evaluate_re create_nginx_log_record_table_definition
         (QueryValue.Symbol s) (QueryValue.Regex m) r).map Prod.fst = some (m [])) := by
  have hschema : isSchemaColumn s = true := by
    rcases symbol_cases s with h | h
    · exfalso
      unfold get_symbol_bytes at hmiss
      rw [h] at hmiss
      cases hmiss
    · exact h
  have heqnull : evaluate_eq create_nginx_log_record_table_definition
      (QueryValue.Symbol s) QueryValue.Null r = some true := by
    have he : evaluate_eq create_nginx_log_record_table_definition
        (QueryValue.Symbol s) QueryValue.Null r
        = (get_symbol_bytes create_nginx_log_record_table_definition r s).map
            (fun b => b.isNone) := rfl
    rw [he, hmiss]
    rfl
  have heqo2 : validOperand o2 = true → ¬o2 = QueryValue.Null →
      evaluate_eq create_nginx_log_record_table_definition
        (QueryValue.Symbol s) o2 r = some false := by
    intro hval hnull
    rcases resolve_of_valid hval r with ⟨b2, hb2⟩
    cases o2 with
    | Null => exact absurd rfl hnull
    | Symbol s2 =>
      have he : evaluate_eq create_nginx_log_record_table_definition
          (QueryValue.Symbol s) (QueryValue.Symbol s2) r
          = match resolve_byte_value create_nginx_log_record_table_definition r
                    (QueryValue.Symbol s),
                  resolve_byte_value create_nginx_log_record_table_definition r
                    (QueryValue.Symbol s2) with
            | some b1, some b2 =>
              some (match b1, b2 with
                    | some a, some b => decide (a = b)
                    | _, _ => false)
            | _, _ => none := rfl
      have hr1 : resolve_byte_value create_nginx_log_record_table_definition r
          (QueryValue.Symbol s) = some none := hmiss
      rw [he, hr1, hb2]
    | Text a b =>
      have hr1 : resolve_byte_value create_nginx_log_record_table_definition r
          (QueryValue.Symbol s) = some none := hmiss
      have he : evaluate_eq create_nginx_log_record_table_definition
          (QueryValue.Symbol s) (QueryValue.Text a b) r
          = match resolve_byte_value create_nginx_log_record_table_definition r
                    (QueryValue.Symbol s),
                  (some (some b) : Option (Option Bytes)) with
            | some b1, some b2 =>
              some (match b1, b2 with
                    | some x, some y => decide (x = y)
                    | _, _ => false)
            | _, _ => none := rfl
      rw [he, hr1]
    | Int i b =>
      have hr1 : resolve_byte_value create_nginx_log_record_table_definition r
          (QueryValue.Symbol s) = some none := hmiss
      have he : evaluate_eq create_nginx_log_record_table_definition
          (QueryValue.Symbol s) (QueryValue.Int i b) r
          = match resolve_byte_value create_nginx_log_record_table_definition r
                    (QueryValue.Symbol s),
                  (some (some b) : Option (Option Bytes)) with
            | some b1, some b2 =>
              some (match b1, b2 with
                    | some x, some y => decide (x = y)
                    | _, _ => false)
            | _, _ => none := rfl
      rw [he, hr1]
    | Double dd b =>
      have hr1 : resolve_byte_value create_nginx_log_record_table_definition r
          (QueryValue.Symbol s) = some none := hmiss
      have he : evaluate_eq create_nginx_log_record_table_definition
          (QueryValue.Symbol s) (QueryValue.Double dd b) r
          = match resolve_byte_value create_nginx_log_record_table_definition r
                    (QueryValue.Symbol s),
                  (some (some b) : Option (Option Bytes)) with
            | some b1, some b2 =>
              some (match b1, b2 with
                    | some x, some y => decide (x = y)
                    | _, _ => false)
            | _, _ => none := rfl
      rw [he, hr1]
    | Regex mm =>
      have hr1 : resolve_byte_value create_nginx_log_record_table_definition r
          (QueryValue.Symbol s) = some none := hmiss
      have he : evaluate_eq create_nginx_log_record_table_definition
          (QueryValue.Symbol s) (QueryValue.Regex mm) r
          = match resolve_byte_value create_nginx_log_record_table_definition r
                    (QueryValue.Symbol s),
                  (some none : Option (Option Bytes)) with
            | some b1, some b2 =>
              some (match b1, b2 with
                    | some x, some y => decide (x = y)
                    | _, _ => false)
            | _, _ => none := rfl
      rw [he, hr1]
    | Boolean bb =>
      have hr1 : resolve_byte_value create_nginx_log_record_table_definition r
          (QueryValue.Symbol s) = some none := hmiss
      have he : evaluate_eq create_nginx_log_record_table_definition
          (QueryValue.Symbol s) (QueryValue.Boolean bb) r
          = match resolve_byte_value create_nginx_log_record_table_definition r
                    (QueryValue.Symbol s),
                  (some none : Option (Option Bytes)) with
            | some b1, some b2 =>
              some (match b1, b2 with
                    | some x, some y => decide (x = y)
                    | _, _ => false)
            | _, _ => none := rfl
      rw [he, hr1]
    | Date dd =>
      have hr1 : resolve_byte_value create_nginx_log_record_table_definition r
          (QueryValue.Symbol s) = some none := hmiss
      have he : evaluate_eq create_nginx_log_record_table_definition
          (QueryValue.Symbol s) (QueryValue.Date dd) r
          = match resolve_byte_value create_nginx_log_record_table_definition r
                    (QueryValue.Symbol s),
                  (some none : Option (Option Bytes)) with
            | some b1, some b2 =>
              some (match b1, b2 with
                    | some x, some y => decide (x = y)
                    | _, _ => false)
            | _, _ => none := rfl
      rw [he, hr1]
  refine ⟨heqnull, heqo2, ?_, ?_, ?_, ?_, ?_, ?_, ?_, ?_, ?_, ?_, ?_, ?_⟩
  · show (evaluate_eq create_nginx_log_record_table_definition
      (QueryValue.Symbol s) QueryValue.Null r).map (fun b => (!b, r)) = some (false, r)
    rw [heqnull]
    rfl
  · intro hval hnull
    show (evaluate_eq create_nginx_log_record_table_definition
      (QueryValue.Symbol s) o2 r).map (fun b => (!b, r)) = some (true, r)
    rw [heqo2 hval hnull]
    rfl
  · intro hval hdate
    rcases resolve_of_valid hval r with ⟨b2, hb2⟩
    unfold evaluate_lt
    rw [if_neg (by simpa using hdate)]
    have hr1 : resolve_byte_value create_nginx_log_record_table_definition r
        (QueryValue.Symbol s) = some none := hmiss
    rw [hr1, hb2]
  · intro hval hdate
    rcases resolve_of_valid hval r with ⟨b2, hb2⟩
    unfold evaluate_gt
    rw [if_neg (by simpa using hdate)]
    have hr1 : resolve_byte_value create_nginx_log_record_table_definition r
        (QueryValue.Symbol s) = some none := hmiss
    rw [hr1, hb2]
  · intro hneq
    exact lt_date_non_date_col hschema hneq r d
  · intro hneq
    exact gt_date_non_date_col hschema hneq r d
  · intro hdq
    subst hdq
    have hraw : r.date = [] := by
      have he : get_symbol_bytes create_nginx_log_record_table_definition r "date"
          = some (empty_opt r.date) := rfl
      rw [he] at hmiss
      exact empty_opt_eq_none (Option.some.inj hmiss)
    have hpd : r.parsed_date = none := by
      unfold BinaryNginxLogRecord.parsed_date
      rw [hfresh, hraw]
      simp [ParsedNginxLogRecord.empty, parseNginxDate_nil]
    have he : evaluate_lt create_nginx_log_record_table_definition
        (QueryValue.Symbol "date") (QueryValue.Date d) r
        = ((r.parsed_date).map (fun p => (some p.1, p.2))).map
            (fun p => ((match p.1 with
                        | some t => decide (t < d)
                        | none => false), p.2)) := rfl
    rw [he, hpd]
    rfl
  · intro hdq
    subst hdq
    have hraw : r.date = [] := by
      have he : get_symbol_bytes create_nginx_log_record_table_definition r "date"
          = some (empty_opt r.date) := rfl
      rw [he] at hmiss
      exact empty_opt_eq_none (Option.some.inj hmiss)
    have hpd : r.parsed_date = none := by
      unfold BinaryNginxLogRecord.parsed_date
      rw [hfresh, hraw]
      simp [ParsedNginxLogRecord.empty, parseNginxDate_nil]
    have he : evaluate_gt create_nginx_log_record_table_definition
        (QueryValue.Symbol "date") (QueryValue.Date d) r
        = ((r.parsed_date).map (fun p => (some p.1, p.2))).map
            (fun p => ((match p.1 with
                        | some t => decide (d < t)
                        | none => false), p.2)) := rfl
    rw [he, hpd]
    rfl
  · intro hni hnp
    rcases get_symbol_string_missing hschema hni hnp hmiss hfresh with ⟨r1, hgs⟩
    have he : (evaluate_re create_nginx_log_record_table_definition
        (QueryValue.Symbol s) (QueryValue.Regex m) r).map Prod.fst
        = ((get_symbol_string create_nginx_log_record_table_definition r s).map
            (fun p => ((match p.1 with
                        | some s0 => m s0
                        | none => false), p.2))).map Prod.fst := rfl
    rw [he, hgs]
    rfl
  · intro hni hnp
    rcases get_symbol_string_missing hschema hni hnp hmiss hfresh with ⟨r1, hgs⟩
    have he : (evaluate_re create_nginx_log_record_table_definition
        (QueryValue.Symbol s) (QueryValue.Text tv tb) r).map Prod.fst
        = ((get_symbol_string create_nginx_log_record_table_definition r s).map
            (fun p => ((match p.1 with
                        | some s0 => containsSeq s0 tv
                        | none => false), p.2))).map Prod.fst := rfl
    rw [he, hgs]
    rfl
  · intro hni hnp
    rcases get_symbol_string_missing hschema hni hnp hmiss hfresh with ⟨r1, hgs⟩
    have hre : evaluate_re create_nginx_log_record_table_definition
        (QueryValue.Symbol s) (QueryValue.Regex m) r = some (false, r1) := by
      have he : evaluate_re create_nginx_log_record_table_definition
          (QueryValue.Symbol s) (QueryValue.Regex m) r
          = (get_symbol_string create_nginx_log_record_table_definition r s).map
              (fun p => ((match p.1 with
                          | some s0 => m s0
                          | none => false), p.2)) := rfl
      rw [he, hgs]
      rfl
    have he2 : evaluate_binary_filter create_nginx_log_record_table_definition
        (QueryValue.Symbol s) (QueryValue.Regex m) QueryFilterBinaryOp.Nr r
        = (evaluate_re create_nginx_log_record_table_definition
            (QueryValue.Symbol s) (QueryValue.Regex m) r).map (fun p => (!p.1, p.2)) := rfl
    rw [he2, hre]
    rfl
  · intro hip
    subst hip
    have hraw : r.ip = [] := by
      have he : get_symbol_bytes create_nginx_log_record_table_definition r "ip"
          = some (empty_opt r.ip) := rfl
      rw [he] at hmiss
      exact empty_opt_eq_none (Option.some.inj hmiss)
    have hfst : (r.parsed_ip).1 = r.ip := by
      unfold BinaryNginxLogRecord.parsed_ip
      rw [hfresh]
      simp [ParsedNginxLogRecord.empty]
    have he : (evaluate_re create_nginx_log_record_table_definition
        (QueryValue.Symbol "ip") (QueryValue.Regex m) r).map Prod.fst
        = some (m (r.parsed_ip).1) := rfl
    rw [he, hfst, hraw]

theorem slotMono_refl {α : Type} (a : Option α) : slotMono a a := fun _ h => h

theorem slotMono_trans {α : Type} {a b c : Option α}
    (h1 : slotMono a b) (h2 : slotMono b c) : slotMono a c :=
  fun v h => h2 v (h1 v h)

theorem rawPreserved_refl (r : BinaryNginxLogRecord) : rawPreserved r r :=
  ⟨rfl, rfl, rfl, rfl, rfl, rfl, rfl, rfl, rfl⟩

theorem cacheMonotone_refl (r : BinaryNginxLogRecord) : cacheMonotone r r :=
  ⟨slotMono_refl _, slotMono_refl _, slotMono_refl _, slotMono_refl _,
   slotMono_refl _, slotMono_refl _, slotMono_refl _, slotMono_refl _, slotMono_refl _⟩

theorem rawPreserved_trans {r1 r2 r3 : BinaryNginxLogRecord}
    (h1 : rawPreserved r1 r2) (h2 : rawPreserved r2 r3) : rawPreserved r1 r3 := by
  obtain ⟨a1, a2, a3, a4, a5, a6, a7, a8, a9⟩ := h1
  obtain ⟨b1, b2, b3, b4, b5, b6, b7, b8, b9⟩ := h2
  exact ⟨b1.trans a1, b2.trans a2, b3.trans a3, b4.trans a4, b5.trans a5,
         b6.trans a6, b7.trans a7, b8.trans a8, b9.trans a9⟩

theorem cacheMonotone_trans {r1 r2 r3 : BinaryNginxLogRecord}
    (h1 : cacheMonotone r1 r2) (h2 : cacheMonotone r2 r3) : cacheMonotone r1 r3 := by
  obtain ⟨a1, a2, a3, a4, a5, a6, a7, a8, a9⟩ := h1
  obtain ⟨b1, b2, b3, b4, b5, b6, b7, b8, b9⟩ := h2
  exact ⟨slotMono_trans a1 b1, slotMono_trans a2 b2, slotMono_trans a3 b3,
         slotMono_trans a4 b4, slotMono_trans a5 b5, slotMono_trans a6 b6,
         slotMono_trans a7 b7, slotMono_trans a8 b8, slotMono_trans a9 b9⟩

theorem frame_parsed_ip (r : BinaryNginxLogRecord) :
    rawPreserved r (r.parsed_ip).2 ∧ cacheMonotone r (r.parsed_ip).2 := by
  unfold BinaryNginxLogRecord.parsed_ip
  rcases h : r.parsed_record.ip with _ | v
  · refine ⟨⟨rfl, rfl, rfl, rfl, rfl, rfl, rfl, rfl, rfl⟩,
      ⟨?_, slotMono_refl _, slotMono_refl _, slotMono_refl _, slotMono_refl _,
       slotMono_refl _, slotMono_refl _, slotMono_refl _, slotMono_refl _⟩⟩
    intro w hw
    rw [h] at hw
    cases hw
  · exact ⟨rawPreserved_refl r, cacheMonotone_refl r⟩

theorem frame_parsed_path (r : BinaryNginxLogRecord) :
    rawPreserved r (r.parsed_path).2 ∧ cacheMonotone r (r.parsed_path).2 := by
  unfold BinaryNginxLogRecord.parsed_path
  rcases h : r.parsed_record.path with _ | v
  · refine ⟨⟨rfl, rfl, rfl, rfl, rfl, rfl, rfl, rfl, rfl⟩,
      ⟨slotMono_refl _, slotMono_refl _, slotMono_refl _, ?_, slotMono_refl _,
       slotMono_refl _, slotMono_refl _, slotMono_refl _, slotMono_refl _⟩⟩
    intro w hw
    rw [h] at hw
    cases hw
  · exact ⟨rawPreserved_refl r, cacheMonotone_refl r⟩

theorem frame_parsed_method (r : BinaryNginxLogRecord) :
    rawPreserved r (r.parsed_method).2 ∧ cacheMonotone r (r.parsed_method).2 := by
  unfold BinaryNginxLogRecord.parsed_method
  rcases h : r.parsed_record.method with _ | v
  · refine ⟨⟨rfl, rfl, rfl, rfl, rfl, rfl, rfl, rfl, rfl⟩,
      ⟨slotMono_refl _, slotMono_refl _, ?_, slotMono_refl _, slotMono_refl _,
       slotMono_refl _, slotMono_refl _, slotMono_refl _, slotMono_refl _⟩⟩
    intro w hw
    rw [h] at hw
    cases hw
  · exact ⟨rawPreserved_refl r, cacheMonotone_refl r⟩

theorem frame_parsed_query (r : BinaryNginxLogRecord) :
    rawPreserved r (r.parsed_query).2 ∧ cacheMonotone r (r.parsed_query).2 := by
  unfold BinaryNginxLogRecord.parsed_query
  rcases h : r.parsed_record.query with _ | v
  · refine ⟨⟨rfl, rfl, rfl, rfl, rfl, rfl, rfl, rfl, rfl⟩,
      ⟨slotMono_refl _, slotMono_refl _, slotMono_refl _, slotMono_refl _, ?_,
       slotMono_refl _, slotMono_refl _, slotMono_refl _, slotMono_refl _⟩⟩
    intro w hw
    rw [h] at hw
    cases hw
  · exact ⟨rawPreserved_refl r, cacheMonotone_refl r⟩

theorem frame_parsed_referrer (r : BinaryNginxLogRecord) :
    rawPreserved r (r.parsed_referrer).2 ∧ cacheMonotone r (r.parsed_referrer).2 := by
  unfold BinaryNginxLogRecord.parsed_referrer
  rcases h : r.parsed_record.referrer with _ | v
  · refine ⟨⟨rfl, rfl, rfl, rfl, rfl, rfl, rfl, rfl, rfl⟩,
      ⟨slotMono_refl _, slotMono_refl _, slotMono_refl _, slotMono_refl _,
       slotMono_refl _, slotMono_refl _, slotMono_refl _, ?_, slotMono_refl _⟩⟩
    intro w hw
    rw [h] at hw
    cases hw
  · exact ⟨rawPreserved_refl r, cacheMonotone_refl r⟩

theorem frame_parsed_user_agent (r : BinaryNginxLogRecord) :
    rawPreserved r (r.parsed_user_agent).2 ∧ cacheMonotone r (r.parsed_user_agent).2 := by
  unfold BinaryNginxLogRecord.parsed_user_agent
  rcases h : r.parsed_record.user_agent with _ | v
  · refine ⟨⟨rfl, rfl, rfl, rfl, rfl, rfl, rfl, rfl, rfl⟩,
      ⟨slotMono_refl _, slotMono_refl _, slotMono_refl _, slotMono_refl _,
       slotMono_refl _, slotMono_refl _, slotMono_refl _, slotMono_refl _, ?_⟩⟩
    intro w hw
    rw [h] at hw
    cases hw
  · exact ⟨rawPreserved_refl r, cacheMonotone_refl r⟩

theorem frame_parsed_date {r : BinaryNginxLogRecord} {p : Int × BinaryNginxLogRecord}
    (h : r.parsed_date = some p) :
    rawPreserved r p.2 ∧ cacheMonotone r p.2 := by
  unfold BinaryNginxLogRecord.parsed_date at h
  rcases hc : r.parsed_record.date with _ | v <;> rw [hc] at h
  · rcases hp : parseNginxDate r.date with _ | t <;> rw [hp] at h
    · cases h
    · cases h
      refine ⟨⟨rfl, rfl, rfl, rfl, rfl, rfl, rfl, rfl, rfl⟩,
        ⟨slotMono_refl _, ?_, slotMono_refl _, slotMono_refl _, slotMono_refl _,
         slotMono_refl _, slotMono_refl _, slotMono_refl _, slotMono_refl _⟩⟩
      intro w hw
      rw [hc] at hw
      cases hw
  · cases h
    exact ⟨rawPreserved_refl r, cacheMonotone_refl r⟩

theorem frame_get_symbol_string {s : String} {r : BinaryNginxLogRecord}
    {v : Option Bytes} {r1 : BinaryNginxLogRecord}
    (h : get_symbol_string create_nginx_log_record_table_definition r s = some (v, r1)) :
    rawPreserved r r1 ∧ cacheMonotone r r1 := by
  rcases symbol_cases s with hn | hs
  · exfalso
    unfold get_symbol_string at h
    rw [hn] at h
    cases h
  · unfold isSchemaColumn at hs
    simp only [decide_eq_true_eq] at hs
    rcases hs with hq|hq|hq|hq|hq|hq|hq|hq|hq <;> subst hq
    · -- ip
      have he : get_symbol_string create_nginx_log_record_table_definition r "ip"
          = some (some (r.parsed_ip).1, (r.parsed_ip).2) := rfl
      rw [he] at h
      cases h
      exact frame_parsed_ip r
    · -- date column is not a Text column: record unchanged
      have he : get_symbol_string create_nginx_log_record_table_definition r "date"
          = some (none, r) := rfl
      rw [he] at h
      cases h
      exact ⟨rawPreserved_refl r, cacheMonotone_refl r⟩
    · have he : get_symbol_string create_nginx_log_record_table_definition r "method"
          = some ((r.parsed_method).1, (r.parsed_method).2) := rfl
      rw [he] at h
      cases h
      exact frame_parsed_method r
    · have he : get_symbol_string create_nginx_log_record_table_definition r "path"
          = some (some (r.parsed_path).1, (r.parsed_path).2) := rfl
      rw [he] at h
      cases h
      exact frame_parsed_path r
    · have he : get_symbol_string create_nginx_log_record_table_definition r "query"
          = some ((r.parsed_query).1, (r.parsed_query).2) := rfl
      rw [he] at h
      cases h
      exact frame_parsed_query r
    · have he : get_symbol_string create_nginx_log_record_table_definition r "status"
          = some (none, r) := rfl
      rw [he] at h
      cases h
      exact ⟨rawPreserved_refl r, cacheMonotone_refl r⟩
    · have he : get_symbol_string create_nginx_log_record_table_definition r "bytes"
          = some (none, r) := rfl
      rw [he] at h
      cases h
      exact ⟨rawPreserved_refl r, cacheMonotone_refl r⟩
    · have he : get_symbol_string create_nginx_log_record_table_definition r "referrer"
          = some ((r.parsed_referrer).1, (r.parsed_referrer).2) := rfl
      rw [he] at h
      cases h
      exact frame_parsed_referrer r
    · have he : get_symbol_string create_nginx_log_record_table_definition r "user_agent"
          = some ((r.parsed_user_agent).1, (r.parsed_user_agent).2) := rfl
      rw [he] at h
      cases h
      exact frame_parsed_user_agent r

theorem frame_get_symbol_date {s : String} {r : BinaryNginxLogRecord}
    {v : Option Int} {r1 : BinaryNginxLogRecord}
    (h : get_symbol_date create_nginx_log_record_table_definition r s = some (v, r1)) :
    rawPreserved r r1 ∧ cacheMonotone r r1 := by
  rcases symbol_cases s with hn | hs
  · exfalso
    unfold get_symbol_date at h
    rw [hn] at h
    cases h
  · unfold isSchemaColumn at hs
    simp only [decide_eq_true_eq] at hs
    rcases hs with hq|hq|hq|hq|hq|hq|hq|hq|hq <;> subst hq
    case inl =>
      have he : get_symbol_date create_nginx_log_record_table_definition r "ip"
          = some (none, r) := rfl
      rw [he] at h
      cases h
      exact ⟨rawPreserved_refl r, cacheMonotone_refl r⟩
    case inr.inl =>
      have he : get_symbol_date create_nginx_log_record_table_definition r "date"
          = (r.parsed_date).map (fun p => (some p.1, p.2)) := rfl
      rw [he] at h
      rcases hp : r.parsed_date with _ | p <;> rw [hp] at h
      · cases h
      · cases h
        exact frame_parsed_date hp
    all_goals {
      first
      | (have he : get_symbol_date create_nginx_log_record_table_definition r "method"
            = some (none, r) := rfl
         rw [he] at h; cases h; exact ⟨rawPreserved_refl r, cacheMonotone_refl r⟩)
      | (have he : get_symbol_date create_nginx_log_record_table_definition r "path"
            = some (none, r) := rfl
         rw [he] at h; cases h; exact ⟨rawPreserved_refl r, cacheMonotone_refl r⟩)
      | (have he : get_symbol_date create_nginx_log_record_table_definition r "query"
            = some (none, r) := rfl
         rw [he] at h; cases h; exact ⟨rawPreserved_refl r, cacheMonotone_refl r⟩)
      | (have he : get_symbol_date create_nginx_log_record_table_definition r "status"
            = some (none, r) := rfl
         rw [he] at h; cases h; exact ⟨rawPreserved_refl r, cacheMonotone_refl r⟩)
      | (have he : get_symbol_date create_nginx_log_record_table_definition r "bytes"
            = some (none, r) := rfl
         rw [he] at h; cases h; exact ⟨rawPreserved_refl r, cacheMonotone_refl r⟩)
      | (have he : get_symbol_date create_nginx_log_record_table_definition r "referrer"
            = some (none, r) := rfl
         rw [he] at h; cases h; exact ⟨rawPreserved_refl r, cacheMonotone_refl r⟩)
      | (have he : get_symbol_date create_nginx_log_record_table_definition r "user_agent"
            = some (none, r) := rfl
         rw [he] at h; cases h; exact ⟨rawPreserved_refl r, cacheMonotone_refl r⟩) }

theorem frame_evaluate_lt {o1 o2 : QueryValue} {r : BinaryNginxLogRecord}
    {b : Bool} {r1 : BinaryNginxLogRecord}
    (h : evaluate_lt create_nginx_log_record_table_definition o1 o2 r = some (b, r1)) :
    rawPreserved r r1 ∧ cacheMonotone r r1 := by
  unfold evaluate_lt at h
  by_cases hd : o2.is_date = true
  · rw [if_pos hd] at h
    split at h
    · rcases hg : get_symbol_date create_nginx_log_record_table_definition r _ with _ | ⟨v, r2⟩ <;>
        rw [hg] at h
      · cases h
      · cases h
        exact frame_get_symbol_date hg
    · cases h
      exact ⟨rawPreserved_refl r, cacheMonotone_refl r⟩
  · rw [if_neg hd] at h
    split at h
    · cases h
      exact ⟨rawPreserved_refl r, cacheMonotone_refl r⟩
    · cases h

theorem frame_evaluate_gt {o1 o2 : QueryValue} {r : BinaryNginxLogRecord}
    {b : Bool} {r1 : BinaryNginxLogRecord}
    (h : evaluate_gt create_nginx_log_record_table_definition o1 o2 r = some (b, r1)) :
    rawPreserved r r1 ∧ cacheMonotone r r1 := by
  unfold evaluate_gt at h
  by_cases hd : o2.is_date = true
  · rw [if_pos hd] at h
    split at h
    · rcases hg : get_symbol_date create_nginx_log_record_table_definition r _ with _ | ⟨v, r2⟩ <;>
        rw [hg] at h
      · cases h
      · cases h
        exact frame_get_symbol_date hg
    · cases h
      exact ⟨rawPreserved_refl r, cacheMonotone_refl r⟩
  · rw [if_neg hd] at h
    split at h
    · cases h
      exact ⟨rawPreserved_refl r, cacheMonotone_refl r⟩
    · cases h

theorem frame_evaluate_re {o1 o2 : QueryValue} {r : BinaryNginxLogRecord}
    {b : Bool} {r1 : BinaryNginxLogRecord}
    (h : evaluate_re create_nginx_log_record_table_definition o1 o2 r = some (b, r1)) :
    rawPreserved r r1 ∧ cacheMonotone r r1 := by
  unfold evaluate_re at h
  split at h
  · rcases hg : get_symbol_string create_nginx_log_record_table_definition r _ with _ | ⟨v, r2⟩ <;>
      rw [hg] at h
    · cases h
    · cases h
      exact frame_get_symbol_string hg
  · rcases hg : get_symbol_string create_nginx_log_record_table_definition r _ with _ | ⟨v, r2⟩ <;>
      rw [hg] at h
    · cases h
    · cases h
      exact frame_get_symbol_string hg
  · cases h
    exact ⟨rawPreserved_refl r, cacheMonotone_refl r⟩

theorem frame_evaluate_binary_filter {o1 o2 : QueryValue}
    {op : QueryFilterBinaryOp} {r : BinaryNginxLogRecord}
    {b : Bool} {r1 : BinaryNginxLogRecord}
    (h : evaluate_binary_filter create_nginx_log_record_table_definition o1 o2 op r
      = some (b, r1)) :
    rawPreserved r r1 ∧ cacheMonotone r r1 := by
  unfold evaluate_binary_filter at h
  cases op with
  | Lt => exact frame_evaluate_lt h
  | Gt => exact frame_evaluate_gt h
  | Eq =>
    rcases he : evaluate_eq create_nginx_log_record_table_definition o1 o2 r with _ | bb <;>
      rw [he] at h
    · cases h
    · cases h
      exact ⟨rawPreserved_refl r, cacheMonotone_refl r⟩
  | Ne =>
    rcases he : evaluate_eq create_nginx_log_record_table_definition o1 o2 r with _ | bb <;>
      rw [he] at h
    · cases h
    · cases h
      exact ⟨rawPreserved_refl r, cacheMonotone_refl r⟩
  | Re => exact frame_evaluate_re h
  | Nr =>
    rcases he : evaluate_re create_nginx_log_record_table_definition o1 o2 r with _ | ⟨bb, r2⟩ <;>
      rw [he] at h
    · cases h
    · cases h
      exact frame_evaluate_re he

/-- C10 (amended): whenever filter evaluation completes, it returns a boolean
and the nine raw byte columns are unchanged; a parsed-cache slot can only go
from unset to set. -/
theorem evaluate_filter_frame (filter : QueryFilter) (r : BinaryNginxLogRecord)
    (b : Bool) (r1 : BinaryNginxLogRecord)
    (h : evaluate_filter create_nginx_log_record_table_definition filter r
      = some (b, r1)) :
    rawPreserved r r1 ∧ cacheMonotone r r1 := by
  induction filter generalizing r b r1 with
  | BinaryOpFilter o1 o2 op => exact frame_evaluate_binary_filter h
  | AndFilter f1 f2 ih1 ih2 =>
    unfold evaluate_filter at h
    rcases h1 : evaluate_filter create_nginx_log_record_table_definition f1 r
      with _ | ⟨b1, rm⟩ <;> rw [h1] at h
    · cases h
    · rcases b1 with _ | _
      · simp only [Bool.false_eq_true, if_false] at h
        cases h
        exact ih1 _ _ _ h1
      · simp only [if_true] at h
        have hm := ih1 _ _ _ h1
        have hm2 := ih2 _ _ _ h
        exact ⟨rawPreserved_trans hm.1 hm2.1, cacheMonotone_trans hm.2 hm2.2⟩
  | OrFilter f1 f2 ih1 ih2 =>
    unfold evaluate_filter at h
    rcases h1 : evaluate_filter create_nginx_log_record_table_definition f1 r
      with _ | ⟨b1, rm⟩ <;> rw [h1] at h
    · cases h
    · rcases b1 with _ | _
      · simp only [Bool.false_eq_true, if_false] at h
        have hm := ih1 _ _ _ h1
        have hm2 := ih2 _ _ _ h
        exact ⟨rawPreserved_trans hm.1 hm2.1, cacheMonotone_trans hm.2 hm2.2⟩
      · simp only [if_true] at h
        cases h
        exact ih1 _ _ _ h1
theorem resolve_spec {v : QueryValue} (hv : validOperand v = true)
    (r : BinaryNginxLogRecord) :
    resolve_byte_value create_nginx_log_record_table_definition r v
      = some (specValueBytes r v) := by
  cases v with
  | Symbol s =>
    have hs : isSchemaColumn s = true := hv
    unfold isSchemaColumn at hs
    simp only [decide_eq_true_eq] at hs
    rcases hs with h|h|h|h|h|h|h|h|h <;> subst h
    · rw [show resolve_byte_value create_nginx_log_record_table_definition r
          (QueryValue.Symbol "ip") = some (empty_opt r.ip) from rfl, empty_opt_eq]
      rfl
    · rw [show resolve_byte_value create_nginx_log_record_table_definition r
          (QueryValue.Symbol "date") = some (empty_opt r.date) from rfl, empty_opt_eq]
      rfl
    · rw [show resolve_byte_value create_nginx_log_record_table_definition r
          (QueryValue.Symbol "method") = some (empty_opt r.method) from rfl, empty_opt_eq]
      rfl
    · rw [show resolve_byte_value create_nginx_log_record_table_definition r
          (QueryValue.Symbol "path") = some (empty_opt r.path) from rfl, empty_opt_eq]
      rfl
    · rw [show resolve_byte_value create_nginx_log_record_table_definition r
          (QueryValue.Symbol "query") = some (empty_opt r.query) from rfl, empty_opt_eq]
      rfl
    · rw [show resolve_byte_value create_nginx_log_record_table_definition r
          (QueryValue.Symbol "status") = some (empty_opt r.status) from rfl, empty_opt_eq]
      rfl
    · rw [show resolve_byte_value create_nginx_log_record_table_definition r
          (QueryValue.Symbol "bytes") = some (empty_opt r.bytes) from rfl, empty_opt_eq]
      rfl
    · rw [show resolve_byte_value create_nginx_log_record_table_definition r
          (QueryValue.Symbol "referrer") = some (empty_opt r.referrer) from rfl, empty_opt_eq]
      rfl
    · rw [show resolve_byte_value create_nginx_log_record_table_definition r
          (QueryValue.Symbol "user_agent") = some (empty_opt r.user_agent) from rfl,
        empty_opt_eq]
      rfl
  | Text a b => rfl
  | Regex m => rfl
  | Int i b => rfl
  | Double dd b => rfl
  | Boolean bb => rfl
  | Date dd => rfl
  | Null => rfl

/-- C7: `lt`/`gt` semantics — with a non-`Date` right operand both sides are
resolved to raw byte slices and compared lexicographically (false when either
side is missing); with a `Date` right operand and a non-symbol left operand
the result is false; a non-`date` schema column compared to a `Date` literal
is false; for the `date` column the bytes are decoded as a date and compared
chronologically (decode failure is a panic, modelled `none`). -/
theorem lt_gt_comparison_semantics (o1 o2 : QueryValue) (r : BinaryNginxLogRecord)
    (s : String) (d : Int) :
    (¬o2.is_date = true → validOperand o1 = true → validOperand o2 = true →
      evaluate_lt create_nginx_log_record_table_definition o1 o2 r
        = some ((match specValueBytes r o1, specValueBytes r o2 with
                 | some a, some bb => lexLt a bb
                 | _, _ => false), r) ∧
      evaluate_gt create_nginx_log_record_table_definition o1 o2 r
        = some ((match specValueBytes r o1, specValueBytes r o2 with
                 | some a, some bb => lexLt bb a
                 | _, _ => false), r)) ∧
    ((∀ s0, ¬o1 = QueryValue.Symbol s0) →
      evaluate_lt create_nginx_log_record_table_definition o1 (QueryValue.Date d) r
        = some (false, r) ∧
      evaluate_gt create_nginx_log_record_table_definition o1 (QueryValue.Date d) r
        = some (false, r)) ∧
    (isSchemaColumn s = true → ¬s = "date" →
      evaluate_lt create_nginx_log_record_table_definition
        (QueryValue.Symbol s) (QueryValue.Date d) r = some (false, r) ∧
      evaluate_gt create_nginx_log_record_table_definition
        (QueryValue.Symbol s) (QueryValue.Date d) r = some (false, r)) ∧
    (r.parsed_record.date = none →
      evaluate_lt create_nginx_log_record_table_definition
        (QueryValue.Symbol "date") (QueryValue.Date d) r
        = (parseNginxDate r.date).map (fun t => (decide (t < d),
            { r with parsed_record := { r.parsed_record with date := some t } })) ∧
      evaluate_gt create_nginx_log_record_table_definition
        (QueryValue.Symbol "date") (QueryValue.Date d) r
        = (parseNginxDate r.date).map (fun t => (decide (d < t),
            { r with parsed_record := { r.parsed_record with date := some t } }))) := by
  refine ⟨?_, ?_, ?_, ?_⟩
  · intro hnd hv1 hv2
    constructor
    · unfold evaluate_lt
      rw [if_neg (by simpa using hnd), resolve_spec hv1 r, resolve_spec hv2 r]
    · unfold evaluate_gt
      rw [if_neg (by simpa using hnd), resolve_spec hv1 r, resolve_spec hv2 r]
  · intro hno
    cases o1 with
    | Symbol s0 => exact absurd rfl (hno s0)
    | Text a b => exact ⟨rfl, rfl⟩
    | Regex m => exact ⟨rfl, rfl⟩
    | Int i b => exact ⟨rfl, rfl⟩
    | Double dd b => exact ⟨rfl, rfl⟩
    | Boolean bb => exact ⟨rfl, rfl⟩
    | Date dd => exact ⟨rfl, rfl⟩
    | Null => exact ⟨rfl, rfl⟩
  · intro hs hneq
    exact ⟨lt_date_non_date_col hs hneq r d, gt_date_non_date_col hs hneq r d⟩
  · intro hfd
    have hpd : r.parsed_date = (parseNginxDate r.date).map
        (fun t => (t, { r with parsed_record := { r.parsed_record with date := some t } })) := by
      unfold BinaryNginxLogRecord.parsed_date
      rw [hfd]
      rcases hp : parseNginxDate r.date with _ | t <;> rfl
    constructor
    · have he : evaluate_lt create_nginx_log_record_table_definition
          (QueryValue.Symbol "date") (QueryValue.Date d) r
          = ((r.parsed_date).map (fun p => (some p.1, p.2))).map
              (fun p => ((match p.1 with
                          | some t => decide (t < d)
                          | none => false), p.2)) := rfl
      rw [he, hpd]
      rcases hp : parseNginxDate r.date with _ | t <;> rfl
    · have he : evaluate_gt create_nginx_log_record_table_definition
          (QueryValue.Symbol "date") (QueryValue.Date d) r
          = ((r.parsed_date).map (fun p => (some p.1, p.2))).map
              (fun p => ((match p.1 with
                          | some t => decide (d < t)
                          | none => false), p.2)) := rfl
      rw [he, hpd]
      rcases hp : parseNginxDate r.date with _ | t <;> rfl

theorem missing_lhs_filter_semantics_witness :
    evaluate_eq create_nginx_log_record_table_definition
      (QueryValue.Symbol "referrer") QueryValue.Null recEmptyReferrer = some true :=
  (missing_lhs_filter_semantics "referrer" recEmptyReferrer QueryValue.Null 0
    (fun _ => false) [] [] (by rfl) rfl).1

theorem evaluate_filter_frame_witness :
    rawPreserved recEmptyReferrer recEmptyReferrer ∧
    cacheMonotone recEmptyReferrer recEmptyReferrer :=
  evaluate_filter_frame
    (QueryFilter.BinaryOpFilter (QueryValue.Symbol "status")
      (QueryValue.Text (bytesOfString "200") (bytesOfString "200"))
      QueryFilterBinaryOp.Eq)
    recEmptyReferrer true recEmptyReferrer (by rfl)

theorem filter_reducer_map_symbol (l : List String) :
    (l.map (fun s => QueryShowElement.Symbol s)).filter (fun e => e.is_reducer) = [] := by
  induction l with
  | nil => rfl
  | cons x t ih => simpa [QueryShowElement.is_reducer] using ih

theorem any_reducer_map_symbol (l : List String) :
    (l.map (fun s => QueryShowElement.Symbol s)).any (fun e => e.is_reducer) = false := by
  induction l with
  | nil => rfl
  | cons x t ih => simpa [QueryShowElement.is_reducer] using ih

theorem any_star_map_symbol (l : List String) :
    (l.map (fun s => QueryShowElement.Symbol s)).any (fun e => e.is_star) = false := by
  induction l with
  | nil => rfl
  | cons x t ih => simpa [QueryShowElement.is_star] using ih

theorem filter_reducer_idem (l : List QueryShowElement) :
    ((l.filter (fun e => e.is_reducer)).filter (fun e => e.is_reducer))
      = l.filter (fun e => e.is_reducer) := by
  rw [List.filter_filter]
  simp

theorem any_filter_self_of_any {α : Type} {p : α → Bool} {l : List α}
    (h : l.any p = true) : (l.filter p).any p = true := by
  rcases List.any_eq_true.mp h with ⟨x, hx, hpx⟩
  exact List.any_eq_true.mpr ⟨x, List.mem_filter.mpr ⟨hx, hpx⟩, hpx⟩

/-- C5: the show-plan compiler is idempotent — recompiling a query whose raw
show clause is the previously computed show yields that same computed show. -/
theorem compute_show_idempotent (q : RipLogQuery) (tdef : TableDefinition) :
    compute_show { q with showClause := some (compute_show q tdef) } tdef
      = compute_show q tdef := by
  rcases q with ⟨f, g, sh, srt, lim, cs⟩
  rcases g with _ | ⟨gs⟩ <;> rcases sh with _ | ⟨⟨els⟩⟩
  · dsimp only [compute_show]
    rw [any_reducer_map_symbol, any_star_map_symbol]
    simp
  · by_cases hr : els.any (fun e => e.is_reducer) = true
    · dsimp only [compute_show]
      rw [hr]
      simp [any_filter_self_of_any hr, filter_reducer_idem]
    · rw [Bool.not_eq_true] at hr
      by_cases hs : els.any (fun e => e.is_star) = true
      · dsimp only [compute_show]
        rw [hr, hs]
        simp [any_reducer_map_symbol, any_star_map_symbol]
      · rw [Bool.not_eq_true] at hs
        dsimp only [compute_show]
        rw [hr, hs]
        simp [hr, hs]
  · dsimp only [compute_show]
    rw [List.filter_append, filter_reducer_map_symbol]
    simp [QueryShowElement.is_reducer]
  · by_cases he : (els.filter (fun e => e.is_reducer)).isEmpty = true
    · have he' : els.filter (fun e => e.is_reducer) = [] := by
        simpa [List.isEmpty_iff] using he
      dsimp only [compute_show]
      simp only [he']
      simp [List.filter_append, filter_reducer_map_symbol, QueryShowElement.is_reducer]
    · rw [Bool.not_eq_true] at he
      dsimp only [compute_show]
      simp only [he]
      simp [List.filter_append, filter_reducer_map_symbol, filter_reducer_idem, he]

/-- C1: the driver loop never consults `should_stop`, so a non-aggregate
query `show ip` with `limit 1` over two matching lines prints 2 data rows,
while the claim demands `min 1 2 = 1`. -/
theorem limit_ignored_by_driver :
    (evaluate_query_log_lines [sampleLine, sampleLine]
        (QueryEvaluator.new queryShowIpLimit1 create_nginx_log_record_table_definition)
        BinaryNginxLogRecord.empty).map
      (fun p => p.1.record_formatter.rows.length) = some 2 ∧
    Nat.min 1 2 = 1 := by
  constructor
  · rfl
  · rfl

/-- C2: a line missing the `]` delimiter makes the tokenizer panic
(`index_of(...).unwrap()` of `None`, modelled `none`) instead of skipping
the line. -/
theorem tokenizer_unwrap_panics :
    read_log_record_binary lineMissingBrace lineMissingBrace.length
      BinaryNginxLogRecord.empty = none := by
  rfl

/-- C9: unparseable integer columns (`status`, `bytes`) decode to a missing
value, but an unparseable `date` column makes `parsed_date` panic
(`parse_from_str(..).unwrap()`, modelled `none`) rather than yield missing. -/
theorem date_decode_panics :
    BinaryNginxLogRecord.parsed_date recBadDate = none ∧
    (BinaryNginxLogRecord.parsed_status recBadStatus).1 = none ∧
    (BinaryNginxLogRecord.parsed_bytes recBadStatus).1 = none := by
  refine ⟨?_, ?_, ?_⟩
  · rfl
  · rfl
  · rfl

/-- C3 counterexample: `referrer ne "x"` on a record with a missing referrer
evaluates to TRUE, where the claim says every operator except `eq Null`
yields false. -/
theorem missing_lhs_ne_true_cex :
    (evaluate_filter create_nginx_log_record_table_definition
        (QueryFilter.BinaryOpFilter (QueryValue.Symbol "referrer")
          (QueryValue.Text (bytesOfString "x") (bytesOfString "x"))
          QueryFilterBinaryOp.Ne)
        recEmptyReferrer).map Prod.fst = some true := by
  rfl

/-- C4 counterexample: a group field of width 15 formatting a 200-byte value
grows its width to 200 and pads the cell to 202 bytes, where the claim says
the width is capped at 50. -/
theorem width_overshoots_cap_cex :
    (OutputField.format_field (OutputField.groupF "ip" 0 15)
        create_nginx_log_record_table_definition none
        (some [List.replicate 200 97]) none).map
      (fun p => (p.1.length, p.2.1.size)) = some (202, 200) ∧
    ¬(200 ≤ 50) := by
  constructor
  · rfl
  · decide

/-- C8 counterexample: an aggregate query (`group ip`) with `limit 0` has
`should_stop` true immediately, where the claim says aggregate mode never
stops early. -/
theorem aggregate_limit_zero_stop_cex :
    (QueryEvaluator.new queryGroupIpLimit0
        create_nginx_log_record_table_definition).aggregate = true ∧
    (QueryEvaluator.new queryGroupIpLimit0
        create_nginx_log_record_table_definition).should_stop = true := by
  constructor
  · rfl
  · rfl

/-- C10 counterexample: evaluating `date lt Date(0)` on a record with
unparseable date bytes panics (modelled `none`) instead of returning a
boolean. -/
theorem filter_date_panic_cex :
    evaluate_filter create_nginx_log_record_table_definition
      (QueryFilter.BinaryOpFilter (QueryValue.Symbol "date")
        (QueryValue.Date 0) QueryFilterBinaryOp.Lt)
      recBadDate = none := by
  rfl

end Riplog
